import Mathlib

/-!
Verification development for the `watch-next-kodi` repository.

The Go sources are shallowly embedded as executable Lean definitions:

* `internal/kodi/client.go` — the JSON-RPC client, `MediaItem` payload
  decoding (`UnmarshalJSON`), `FuzzySearch` and `levenshtein`;
* `internal/server` (server.go) — `downloadBestImage`, `handleSyncLibrary`;
* `internal/database/ops.go` — `ClearLibraryCache`, `AddToLibraryCache`;
* `internal/database/db.go` — the `migrate` schema migrator.

Go strings are modelled as Lean `String` (a list of characters standing for
the rune sequence; the repository only manipulates ASCII in the places the
theorems touch, where Go's byte-length and rune-length coincide).
Go `int` values are modelled as `Int`, `float64` ratings are carried
opaquely as `Rat` (no arithmetic is ever performed on them).
`sort.Slice` is embedded as the pdqsort algorithm of Go's `sort` package
(`zsortfunc.go`), fuel-recursive; the fuel is generous enough for every
concrete run and fuel exhaustion returns the slice unchanged, which keeps
the permutation lemmas unconditional.
-/

/-! ## Go string primitives -/

/-- Go `strings.ToLower`, restricted to the ASCII mapping that
`Char.toLower` implements (all concrete inputs below are ASCII). -/
def lowerStr (s : String) : String :=
  String.mk (s.data.map Char.toLower)

/-- Go `strings.HasPrefix s p`: `s` starts with `p`. -/
def strHasPfx (s p : String) : Bool :=
  p.data.isPrefixOf s.data

/-- Auxiliary scan for Go `strings.Contains`. -/
def containsSub : List Char → List Char → Bool
  | s, sub =>
    sub.isPrefixOf s ||
      match s with
      | [] => false
      | _ :: t => containsSub t sub

/-- Go `strings.Contains s sub`. -/
def strContains (s sub : String) : Bool :=
  containsSub s.data sub.data

/-! ## `levenshtein` (internal/kodi/client.go, lines 315-341)

The Go function converts both strings to runes, swaps them so the shorter
one indexes the rows, and runs the classic two-row dynamic program.
Everything from the `kodi` Go package lives in the `kodi` namespace. -/

namespace kodi

/-- One inner `for j := 1; j <= n; j++` sweep of the DP: `pd` is
`previousRow[j-1]`, `cp` is `currentRow[j-1]`, `prest` is
`previousRow[j..]`. -/
def levStep (c2 : Char) : List Char → Nat → Nat → List Nat → List Nat
  | [], _, _, _ => []
  | c1 :: r1, pd, cp, prest =>
    let pj := prest.headD 0
    let add := pj + 1
    let del := cp + 1
    let change := if c1 = c2 then pd else pd + 1
    let v := min add (min del change)
    v :: levStep c2 r1 pj v prest.tail

/-- Builds `currentRow` for row index `i` and rune `c2 = r2[i-1]`. -/
def levRowFor (r1 : List Char) (prev : List Nat) (i : Nat) (c2 : Char) : List Nat :=
  i :: levStep c2 r1 (prev.headD 0) i prev.tail

/-- The outer `for i := 1; i <= m; i++` loop of the DP. -/
def levLoop (r1 : List Char) : List Char → Nat → List Nat → List Nat
  | [], _, row => row
  | c2 :: rest, i, row => levLoop r1 rest (i + 1) (levRowFor r1 row i c2)

/-- `levenshtein` from internal/kodi/client.go: swap so `len r1 ≤ len r2`,
seed `currentRow` with `0..n`, run the DP, return `currentRow[n]`. -/
def levenshtein (s1 s2 : String) : Nat :=
  let a := s1.data
  let b := s2.data
  let p := if a.length > b.length then (b, a) else (a, b)
  (levLoop p.1 p.2 1 (List.range (p.1.length + 1))).getLastD 0

/-! ## `MediaItem` and payload decoding (internal/kodi/client.go, lines 50-118) -/

/-- `streamdetails.video` entry (client.go `StreamDetails`). -/
structure VideoStream where
  Duration : Int
deriving DecidableEq, Inhabited

/-- `StreamDetails` (client.go, lines 70-74). -/
structure StreamDetails where
  Video : List VideoStream
deriving DecidableEq, Inhabited

/-- The normalized `MediaItem` struct (client.go, lines 50-68).  `Art` is
Go's `map[string]string`, modelled as an association list. -/
structure MediaItem where
  ID : Int := 0
  Label : String := ""
  Title : String := ""
  Rating : Rat := 0
  Year : Int := 0
  Plot : String := ""
  Runtime : Int := 0
  Duration : Int := 0
  Thumbnail : String := ""
  Art : List (String × String) := []
  StreamDetails : Option StreamDetails := none
  ShowTitle : String := ""
  Season : Int := 0
  Episode : Int := 0
  EpisodeCount : Int := 0
deriving DecidableEq, Inhabited

/-- The JSON fields a payload can carry, as decoded by `UnmarshalJSON`'s
`aux` struct.  A missing field is its zero value, exactly as in Go.
The outer `Episodes int json:"episode"` field of `aux` shadows the
embedded `Alias.Episode` field at the greater depth, so the payload's
`episode` key lands only in `episode` below and the struct's own
`Episode` stays zero until the identity branches run.  There is no
payload key for `EpisodeCount` other than `episode_count`. -/
structure RawItem where
  movieid : Int := 0
  episodeid : Int := 0
  tvshowid : Int := 0
  seasonid : Int := 0
  episode : Int := 0
  id : Int := 0
  label : String := ""
  title : String := ""
  rating : Rat := 0
  year : Int := 0
  plot : String := ""
  runtime : Int := 0
  duration : Int := 0
  thumbnail : String := ""
  art : List (String × String) := []
  streamdetails : Option StreamDetails := none
  showtitle : String := ""
  season : Int := 0
  episode_count : Int := 0
deriving DecidableEq, Inhabited

namespace MediaItem

/-- The plain field decode of `UnmarshalJSON`'s `aux`/`Alias` step:
every struct field other than the overridden ones comes straight from
the payload; `Episode` stays zero because the outer `aux.Episodes`
field shadows the embedded alias field for the `episode` key. -/
def baseDecode (raw : RawItem) : MediaItem :=
  { ID := raw.id
    Label := raw.label
    Title := raw.title
    Rating := raw.rating
    Year := raw.year
    Plot := raw.plot
    Runtime := raw.runtime
    Duration := raw.duration
    Thumbnail := raw.thumbnail
    Art := raw.art
    StreamDetails := raw.streamdetails
    ShowTitle := raw.showtitle
    Season := raw.season
    Episode := 0
    EpisodeCount := raw.episode_count }

/-- The identity-resolution `if/else if` chain of `UnmarshalJSON`
(client.go, lines 92-103). -/
def identityStage (raw : RawItem) (m : MediaItem) : MediaItem :=
  if raw.movieid ≠ 0 then
    { m with ID := raw.movieid }
  else if raw.episodeid ≠ 0 then
    { m with ID := raw.episodeid, Episode := raw.episode }
  else if raw.tvshowid ≠ 0 then
    { m with ID := raw.tvshowid, EpisodeCount := raw.episode }
  else if raw.seasonid ≠ 0 then
    { m with ID := raw.seasonid, EpisodeCount := raw.episode }
  else m

/-- The runtime fallback chain of `UnmarshalJSON` (client.go, lines
105-112): explicit runtime, else duration, else the first stream video
track's duration. -/
def runtimeStage (m : MediaItem) : MediaItem :=
  if m.Runtime = 0 then
    if m.Duration ≠ 0 then { m with Runtime := m.Duration }
    else
      match m.StreamDetails with
      | some sd =>
        match sd.Video with
        | v :: _ => { m with Runtime := v.Duration }
        | [] => m
      | none => m
  else m

/-- The label fallback for the title (client.go, lines 114-116). -/
def titleStage (m : MediaItem) : MediaItem :=
  if m.Title = "" ∧ m.Label ≠ "" then { m with Title := m.Label } else m

/-- `MediaItem.UnmarshalJSON` (client.go, lines 76-118): decode the alias
fields, then resolve identity by the fixed movie → episode → show →
season precedence, then the runtime fallback chain, then the label
fallback for the title. -/
def UnmarshalJSON (raw : RawItem) : MediaItem :=
  titleStage (runtimeStage (identityStage raw (baseDecode raw)))

end MediaItem

/-! ## `FuzzySearch` scoring (internal/kodi/client.go, lines 251-313) -/

/-- The search target: lower-cased title, plus the lower-cased show title
(space-separated) when the show title is non-empty. -/
def targetOf (item : MediaItem) : String :=
  let t := lowerStr item.Title
  if item.ShowTitle ≠ "" then t ++ " " ++ lowerStr item.ShowTitle else t

/-- The per-item admission/scoring step of `FuzzySearch`'s loop, for an
already lower-cased query `q`: prefix tier (score `-50`), substring tier
(score `0`), then Levenshtein admission against
`threshold := len(q)/2` bumped up to at least `3`.  `none` means the item
is skipped. -/
def scoreItem (q : String) (item : MediaItem) : Option Int :=
  let t := targetOf item
  if strHasPfx t q then some (-50)
  else if strContains t q then some 0
  else
    let dist := levenshtein q t
    let threshold := q.length / 2
    let threshold := if threshold < 3 then 3 else threshold
    if dist ≤ threshold then some (Int.ofNat dist) else none

/-- The `results` slice built by `FuzzySearch`'s loop, in encounter
order. -/
def fuzzyScored (items : List MediaItem) (q : String) : List (MediaItem × Int) :=
  items.filterMap (fun item => (scoreItem q item).map (fun s => (item, s)))

end kodi

/-! ## Go's `sort.Slice`

`FuzzySearch` sorts via `sort.Slice`, which (since Go 1.19, and in the
Go ≥ 1.25 toolchain this repository needs for `sync.WaitGroup.Go`) runs
the pattern-defeating quicksort of `sort/zsortfunc.go` with
`limit := bits.Len(uint(length))`.  `sort.Slice` is documented as *not*
stable.  The embedding below reproduces that algorithm over `List α`
with `Int` indices; loops are fuel-recursive, with fuel generous enough
for every concrete run (fuel exhaustion returns the data unchanged, so
the permutation lemmas hold unconditionally). -/

namespace gosort

variable {α : Type _}

/-- Read `data[i]`; out-of-range reads (never reached by the algorithm on
valid input) return `default`. -/
def getL [Inhabited α] (l : List α) (i : Int) : α :=
  if 0 ≤ i then l.getD i.toNat default else default

/-- `data.Swap(i, j)`; out-of-range swaps (never reached) are no-ops. -/
def swapL (l : List α) (i j : Int) : List α :=
  if h : 0 ≤ i ∧ 0 ≤ j ∧ i.toNat < l.length ∧ j.toNat < l.length then
    (l.set i.toNat (l.get ⟨j.toNat, h.2.2.2⟩)).set j.toNat (l.get ⟨i.toNat, h.2.2.1⟩)
  else l

/-- `data.Less(i, j)`. -/
def lessI [Inhabited α] (less : α → α → Bool) (l : List α) (i j : Int) : Bool :=
  less (getL l i) (getL l j)

/-- Inner loop of `insertionSortLessFunc`: sift `data[j]` left while it is
strictly less than its left neighbour. -/
def insInner [Inhabited α] (less : α → α → Bool) (l : List α) (j a : Int) : Nat → List α
  | 0 => l
  | fuel + 1 =>
    if j > a ∧ lessI less l j (j - 1) then
      insInner less (swapL l j (j - 1)) (j - 1) a fuel
    else l

/-- Outer loop of `insertionSortLessFunc` over `i = a+1 .. b-1`. -/
def insOuter [Inhabited α] (less : α → α → Bool) (l : List α) (i b a : Int) : Nat → List α
  | 0 => l
  | fuel + 1 =>
    if i < b then
      insOuter less (insInner less l i a (l.length + 1)) (i + 1) b a fuel
    else l

/-- `insertionSortLessFunc(data, a, b)`. -/
def insertionSortGo [Inhabited α] (less : α → α → Bool) (l : List α) (a b : Int) : List α :=
  insOuter less l (a + 1) b a (l.length + 1)

/-- The loop of `siftDownLessFunc(data, lo, hi, first)`, with `root`
the mutable `root` variable. -/
def siftDownLoop [Inhabited α] (less : α → α → Bool) (l : List α) (root hi first : Int) :
    Nat → List α
  | 0 => l
  | fuel + 1 =>
    let child := 2 * root + 1
    if child ≥ hi then l
    else
      let child :=
        if child + 1 < hi ∧ lessI less l (first + child) (first + child + 1) then child + 1
        else child
      if ¬ lessI less l (first + root) (first + child) then l
      else siftDownLoop less (swapL l (first + root) (first + child)) child hi first fuel

/-- Heap-building loop of `heapSortLessFunc`: `for i := (hi-1)/2; i >= 0; i--`. -/
def heapBuild [Inhabited α] (less : α → α → Bool) (l : List α) (i hi first : Int) :
    Nat → List α
  | 0 => l
  | fuel + 1 =>
    if i ≥ 0 then
      heapBuild less (siftDownLoop less l i hi first (l.length + 1)) (i - 1) hi first fuel
    else l

/-- Pop loop of `heapSortLessFunc`: `for i := hi - 1; i >= 0; i--`. -/
def heapPop [Inhabited α] (less : α → α → Bool) (l : List α) (i first : Int) :
    Nat → List α
  | 0 => l
  | fuel + 1 =>
    if i ≥ 0 then
      let l := swapL l first (first + i)
      heapPop less (siftDownLoop less l 0 i first (l.length + 1)) (i - 1) first fuel
    else l

/-- `heapSortLessFunc(data, a, b)`. -/
def heapSortGo [Inhabited α] (less : α → α → Bool) (l : List α) (a b : Int) : List α :=
  let first := a
  let hi := b - a
  let l := heapBuild less l ((hi - 1) / 2) hi first (l.length + 1)
  heapPop less l (hi - 1) first (l.length + 1)

/-- `reverseRangeLessFunc(data, a, b)`. -/
def reverseRangeGo (l : List α) (i j : Int) : Nat → List α
  | 0 => l
  | fuel + 1 =>
    if i < j then reverseRangeGo (swapL l i j) (i + 1) (j - 1) fuel else l

/-- One step of Go's `xorshift` PRNG over `uint64`. -/
def xorshiftNext (r : Nat) : Nat :=
  let m := 2 ^ 64
  let r := (Nat.xor r (r <<< 13)) % m
  let r := Nat.xor r (r >>> 7)
  (Nat.xor r (r <<< 17)) % m

/-- Binary-length helper, fueled so the kernel can evaluate it. -/
def bitsLenAux : Nat → Nat → Nat
  | 0, _ => 0
  | fuel + 1, n => if n = 0 then 0 else bitsLenAux fuel (n / 2) + 1

/-- `bits.Len(uint(n))`: the number of bits of `n`; `uint` is 64 bits
wide, so 64 division steps always suffice. -/
def bitsLen (n : Nat) : Nat := bitsLenAux 64 n

/-- The three scatter swaps of `breakPatternsLessFunc`. -/
def breakLoop (l : List α) (idx a : Int) (len : Int) (random : Nat) (modulus : Nat) :
    Nat → Int → List α
  | 0, _ => l
  | fuel + 1, i =>
    if i < 3 then
      let random := xorshiftNext random
      let other : Int := Int.ofNat (random &&& (modulus - 1))
      let other := if other ≥ len then other - len else other
      breakLoop (swapL l (idx - 1 + i) (a + other)) idx a len random modulus fuel (i + 1)
    else l

/-- `breakPatternsLessFunc(data, a, b)`. -/
def breakPatternsGo (l : List α) (a b : Int) : List α :=
  let len := b - a
  if len ≥ 8 then
    let random := len.toNat % 2 ^ 64
    let modulus := 2 ^ bitsLen len.toNat
    let idx := a + (len / 4) * 2 - 1
    breakLoop l idx a len random modulus 4 0
  else l

/-- Hints returned by `choosePivotLessFunc`. -/
inductive SortedHint | increasing | decreasing | unknown
deriving DecidableEq

/-- `order2LessFunc`: order two indices by the data under them, counting
swaps. -/
def order2Go [Inhabited α] (less : α → α → Bool) (l : List α) (a b : Int) (swaps : Nat) :
    Int × Int × Nat :=
  if lessI less l b a then (b, a, swaps + 1) else (a, b, swaps)

/-- `medianLessFunc`: index of the median of three, counting swaps. -/
def medianGo [Inhabited α] (less : α → α → Bool) (l : List α) (a b c : Int) (swaps : Nat) :
    Int × Nat :=
  let p1 := order2Go less l a b swaps
  let p2 := order2Go less l p1.2.1 c p1.2.2
  let p3 := order2Go less l p1.1 p2.1 p2.2.2
  (p3.2.1, p3.2.2)

/-- `medianAdjacentLessFunc`: median of `data[a-1], data[a], data[a+1]`. -/
def medianAdjacentGo [Inhabited α] (less : α → α → Bool) (l : List α) (a : Int) (swaps : Nat) :
    Int × Nat :=
  medianGo less l (a - 1) a (a + 1) swaps

/-- `choosePivotLessFunc(data, a, b)`: static pivot below 8 elements,
median-of-three from 8, Tukey ninther from 50; the swap count yields the
sortedness hint. -/
def choosePivotGo [Inhabited α] (less : α → α → Bool) (l : List α) (a b : Int) :
    Int × SortedHint :=
  let len := b - a
  let i := a + (len / 4) * 1
  let j := a + (len / 4) * 2
  let k := a + (len / 4) * 3
  let st :=
    if len ≥ 8 then
      let st0 :=
        if len ≥ 50 then
          let p1 := medianAdjacentGo less l i 0
          let p2 := medianAdjacentGo less l j p1.2
          let p3 := medianAdjacentGo less l k p2.2
          (p1.1, p2.1, p3.1, p3.2)
        else (i, j, k, 0)
      let pm := medianGo less l st0.1 st0.2.1 st0.2.2.1 st0.2.2.2
      (pm.1, pm.2)
    else (j, 0)
  match st.2 with
  | 0 => (st.1, SortedHint.increasing)
  | 12 => (st.1, SortedHint.decreasing)
  | _ => (st.1, SortedHint.unknown)

/-- Scan of `partialInsertionSortLessFunc`: advance `i` while
`!data.Less(i, i-1)`. -/
def scanSorted [Inhabited α] (less : α → α → Bool) (l : List α) (i b : Int) : Nat → Int
  | 0 => i
  | fuel + 1 =>
    if i < b ∧ ¬ lessI less l i (i - 1) then scanSorted less l (i + 1) b fuel else i

/-- Left shift of `partialInsertionSortLessFunc`:
`for j := i - 1; j >= 1; j--`. -/
def shiftLeftGo [Inhabited α] (less : α → α → Bool) (l : List α) (j : Int) : Nat → List α
  | 0 => l
  | fuel + 1 =>
    if j ≥ 1 ∧ lessI less l j (j - 1) then
      shiftLeftGo less (swapL l j (j - 1)) (j - 1) fuel
    else l

/-- Right shift of `partialInsertionSortLessFunc`:
`for j := i + 1; j < b; j++`. -/
def shiftRightGo [Inhabited α] (less : α → α → Bool) (l : List α) (j b : Int) : Nat → List α
  | 0 => l
  | fuel + 1 =>
    if j < b ∧ lessI less l j (j - 1) then
      shiftRightGo less (swapL l j (j - 1)) (j + 1) b fuel
    else l

/-- The `maxSteps` loop of `partialInsertionSortLessFunc`; returns the
(possibly shifted) data and whether the range ended up sorted. -/
def semiInsLoop [Inhabited α] (less : α → α → Bool) (l : List α) (i a b : Int) :
    Nat → List α × Bool
  | 0 => (l, false)
  | steps + 1 =>
    let i := scanSorted less l i b (l.length + 1)
    if i = b then (l, true)
    else if b - a < 50 then (l, false)
    else
      let l := swapL l i (i - 1)
      let l := if i - a ≥ 2 then shiftLeftGo less l (i - 1) (l.length + 1) else l
      let l := if b - i ≥ 2 then shiftRightGo less l (i + 1) b (l.length + 1) else l
      semiInsLoop less l i a b steps

/-- `partialInsertionSortLessFunc(data, a, b)` (`maxSteps = 5`,
`shortestShifting = 50`). -/
def semiInsertionSortGo [Inhabited α] (less : α → α → Bool) (l : List α) (a b : Int) :
    List α × Bool :=
  semiInsLoop less l (a + 1) a b 5

/-- Advance `i` while `i <= j && data.Less(i, pidx)`. -/
def scanUp [Inhabited α] (less : α → α → Bool) (l : List α) (i j pidx : Int) : Nat → Int
  | 0 => i
  | fuel + 1 =>
    if i ≤ j ∧ lessI less l i pidx then scanUp less l (i + 1) j pidx fuel else i

/-- Decrease `j` while `i <= j && !data.Less(j, pidx)`. -/
def scanDown [Inhabited α] (less : α → α → Bool) (l : List α) (i j pidx : Int) : Nat → Int
  | 0 => j
  | fuel + 1 =>
    if i ≤ j ∧ ¬ lessI less l j pidx then scanDown less l i (j - 1) pidx fuel else j

/-- The repeated swap loop of `partitionLessFunc`; returns the data and
the final `j`. -/
def partMainLoop [Inhabited α] (less : α → α → Bool) (l : List α) (i j a : Int) :
    Nat → List α × Int
  | 0 => (l, j)
  | fuel + 1 =>
    let i := scanUp less l i j a (l.length + 1)
    let j := scanDown less l i j a (l.length + 1)
    if i > j then (l, j)
    else partMainLoop less (swapL l i j) (i + 1) (j - 1) a fuel

/-- `partitionLessFunc(data, a, b, pivot)`: returns the data, the final
pivot position, and `alreadyPartitioned`. -/
def partitionGo [Inhabited α] (less : α → α → Bool) (l : List α) (a b pivot : Int) :
    List α × Int × Bool :=
  let l := swapL l a pivot
  let i := scanUp less l (a + 1) (b - 1) a (l.length + 1)
  let j := scanDown less l i (b - 1) a (l.length + 1)
  if i > j then (swapL l j a, j, true)
  else
    let l := swapL l i j
    let r := partMainLoop less l (i + 1) (j - 1) a (l.length + 1)
    (swapL r.1 r.2 a, r.2, false)

/-- Advance `i` while `i <= j && !data.Less(pidx, i)`. -/
def scanEqUp [Inhabited α] (less : α → α → Bool) (l : List α) (i j pidx : Int) : Nat → Int
  | 0 => i
  | fuel + 1 =>
    if i ≤ j ∧ ¬ lessI less l pidx i then scanEqUp less l (i + 1) j pidx fuel else i

/-- Decrease `j` while `i <= j && data.Less(pidx, j)`. -/
def scanEqDown [Inhabited α] (less : α → α → Bool) (l : List α) (i j pidx : Int) : Nat → Int
  | 0 => j
  | fuel + 1 =>
    if i ≤ j ∧ lessI less l pidx j then scanEqDown less l i (j - 1) pidx fuel else j

/-- The swap loop of `partitionEqualLessFunc`; returns the data and the
final `i`. -/
def partEqLoop [Inhabited α] (less : α → α → Bool) (l : List α) (i j a : Int) :
    Nat → List α × Int
  | 0 => (l, i)
  | fuel + 1 =>
    let i := scanEqUp less l i j a (l.length + 1)
    let j := scanEqDown less l i j a (l.length + 1)
    if i > j then (l, i)
    else partEqLoop less (swapL l i j) (i + 1) (j - 1) a fuel

/-- `partitionEqualLessFunc(data, a, b, pivot)`: returns data and the
first index of the strictly-greater suffix. -/
def partitionEqualGo [Inhabited α] (less : α → α → Bool) (l : List α) (a b pivot : Int) :
    List α × Int :=
  let l := swapL l a pivot
  partEqLoop less l (a + 1) (b - 1) a (l.length + 1)

/-- The `if !wasBalanced { breakPatterns; limit-- }` stage of the pdqsort
loop body. -/
def pdqBreakStage (wasBalanced : Bool) (l : List α) (a b limit : Int) : List α × Int :=
  if ¬ wasBalanced then (breakPatternsGo l a b, limit - 1) else (l, limit)

/-- The `if hint == decreasingHint { reverseRange; ... }` stage: returns
the data, the adjusted pivot and the adjusted hint. -/
def pdqReverseStage (l : List α) (a b : Int) (pv : Int × SortedHint) :
    List α × Int × SortedHint :=
  if pv.2 = SortedHint.decreasing then
    (reverseRangeGo l a (b - 1) (l.length + 1), (b - 1) - (pv.1 - a), SortedHint.increasing)
  else (l, pv.1, pv.2)

/-- The guarded `partialInsertionSort` stage. -/
def pdqSemiStage [Inhabited α] (less : α → α → Bool) (go : Bool) (l : List α) (a b : Int) :
    List α × Bool :=
  if go then semiInsertionSortGo less l a b else (l, false)

/-- The main loop of `pdqsortLessFunc` with its loop-carried
`wasBalanced`/`wasPartitioned` flags. -/
def pdqsortLoop [Inhabited α] (less : α → α → Bool) (l : List α)
    (a b limit : Int) (wasBalanced wasPartitioned : Bool) : Nat → List α
  | 0 => l
  | fuel + 1 =>
    let length := b - a
    if length ≤ 12 then insertionSortGo less l a b
    else if limit = 0 then heapSortGo less l a b
    else
      let st := pdqBreakStage wasBalanced l a b limit
      let l := st.1
      let limit := st.2
      let st2 := pdqReverseStage l a b (choosePivotGo less l a b)
      let l := st2.1
      let pivot := st2.2.1
      let hint := st2.2.2
      let pres :=
        pdqSemiStage less
          (wasBalanced && wasPartitioned && decide (hint = SortedHint.increasing)) l a b
      if pres.2 then pres.1
      else
        let l := pres.1
        if a > 0 ∧ ¬ lessI less l (a - 1) pivot then
          let pe := partitionEqualGo less l a b pivot
          pdqsortLoop less pe.1 pe.2 b limit wasBalanced wasPartitioned fuel
        else
          let pr := partitionGo less l a b pivot
          let mid := pr.2.1
          let leftLen := mid - a
          let rightLen := b - mid
          let balanceThreshold := length / 8
          let wasBalanced := min leftLen rightLen ≥ balanceThreshold
          let wasPartitioned := pr.2.2
          if leftLen < rightLen then
            let l2 := pdqsortLoop less pr.1 a mid limit true true fuel
            pdqsortLoop less l2 (mid + 1) b limit wasBalanced wasPartitioned fuel
          else
            let l2 := pdqsortLoop less pr.1 (mid + 1) b limit true true fuel
            pdqsortLoop less l2 a mid limit wasBalanced wasPartitioned fuel

/-- `sort.Slice(x, less)`: pdqsort over the whole slice with
`limit = bits.Len(uint(n))`. -/
def goSortSlice [Inhabited α] (less : α → α → Bool) (xs : List α) : List α :=
  pdqsortLoop less xs 0 xs.length (Int.ofNat (bitsLen xs.length)) true true
    (4 * xs.length + 64)

end gosort

namespace kodi

/-- `FuzzySearch` (client.go, lines 251-313): lower the query, build the
scored `results` in encounter order, sort with `sort.Slice` on ascending
score, project the items out, cap at 20. -/
def FuzzySearch (items : List MediaItem) (query : String) : List MediaItem :=
  let q := lowerStr query
  let results := fuzzyScored items q
  let sorted := gosort.goSortSlice (fun x y => x.2 < y.2) results
  let out := sorted.map Prod.fst
  if out.length > 20 then out.take 20 else out

end kodi

/-! ## JSON-RPC list calls (internal/kodi/client.go, lines 120-240)

`sendRequest` marshals the request, POSTs it, decodes the body into a
`JsonRPCResponse`, and turns a non-null `Error` envelope into a Go error.
The network/decoding effects are abstracted into an `RpcExchange` value
describing what the one HTTP round-trip produced. -/

namespace kodi

/-- `JsonRPCError` (client.go, lines 45-48). -/
structure JsonRPCError where
  Code : Int
  Message : String
deriving DecidableEq, Inhabited

/-- What the `result` field of a decoded response yields when the caller
unmarshals it into its list-shaped struct: either the list decodes, or
the payload is malformed for that shape. -/
inductive RawResult
  | listOf (items : List MediaItem)
  | malformed
deriving DecidableEq, Inhabited

/-- One HTTP round-trip as observed by `sendRequest`: a transport error
from `HTTPClient.Do`, a body that fails to decode into
`JsonRPCResponse`, or a decoded response envelope. -/
inductive RpcExchange
  | transportError (msg : String)
  | undecodableBody (msg : String)
  | response (rpcError : Option JsonRPCError) (result : RawResult)
deriving DecidableEq, Inhabited

/-- `fmt.Errorf("kodi rpc error: %s (code: %d)", ...)` (client.go 236). -/
def rpcErrorString (e : JsonRPCError) : String :=
  "kodi rpc error: " ++ e.Message ++ " (code: " ++ toString e.Code ++ ")"

/-- `sendRequest` (client.go, lines 210-240): propagate transport and
envelope-decode failures; a decoded envelope with non-null `Error` is a
hard error carrying the remote message and code; otherwise hand the
`result` payload to the caller. -/
def sendRequest (x : RpcExchange) : Except String RawResult :=
  match x with
  | .transportError m => .error m
  | .undecodableBody m => .error m
  | .response e r =>
    match e with
    | some err => .error (rpcErrorString err)
    | none => .ok r

/-- The hard-coded fixture list of `GetMovies` for the `"mock"` host. -/
def mockMovies : List MediaItem :=
  [ { ID := 1, Title := "The Matrix", Year := 1999, Rating := (87 : Rat) / 10,
      Runtime := 8160,
      Thumbnail := "https://www.themoviedb.org/t/p/w600_and_h900_bestv2/f89U3Y9YvYvwsf9qTMRS9XBt7qy.jpg" },
    { ID := 2, Title := "Inception", Year := 2010, Rating := (88 : Rat) / 10,
      Runtime := 8880,
      Thumbnail := "https://www.themoviedb.org/t/p/w600_and_h900_bestv2/edv5CZv0jH9upBPaY6PeBjj9d7A.jpg" } ]

/-- `GetMovies` (client.go, lines 120-142): the mock host returns the
fixture; a `sendRequest` failure propagates; a `result` payload that
fails to decode as `{movies: []}` is logged and degrades to the
initialized empty slice with a nil error. -/
def GetMovies (hostURL : String) (x : RpcExchange) : Except String (List MediaItem) :=
  if hostURL = "mock" then .ok mockMovies
  else
    match sendRequest x with
    | .error e => .error e
    | .ok .malformed => .ok []
    | .ok (.listOf items) => .ok items

/-- The hard-coded fixture list of `GetTVShows` for the `"mock"` host. -/
def mockTVShows : List MediaItem :=
  [ { ID := 201, Title := "Breaking Bad", Year := 2008, Rating := (95 : Rat) / 10,
      EpisodeCount := 62,
      Thumbnail := "https://www.themoviedb.org/t/p/w600_and_h900_bestv2/ggws000vxiO0Hcm37m0B3m6idXN.jpg" },
    { ID := 202, Title := "The Office", Year := 2005, Rating := (89 : Rat) / 10,
      EpisodeCount := 201,
      Thumbnail := "https://www.themoviedb.org/t/p/w600_and_h900_bestv2/7D980V87m274Y6968mY96Jvwpis.jpg" } ]

/-- `GetTVShows` (client.go, lines 144-166), same shape as `GetMovies`. -/
def GetTVShows (hostURL : String) (x : RpcExchange) : Except String (List MediaItem) :=
  if hostURL = "mock" then .ok mockTVShows
  else
    match sendRequest x with
    | .error e => .error e
    | .ok .malformed => .ok []
    | .ok (.listOf items) => .ok items

/-- The hard-coded fixture list of `GetSeasons` for the `"mock"` host. -/
def mockSeasons : List MediaItem :=
  [ { ID := 20101, Title := "Season 1", Season := 1, EpisodeCount := 7,
      ShowTitle := "Breaking Bad" } ]

/-- `GetSeasons` (client.go, lines 168-187), same shape as `GetMovies`;
the `tvshowid` parameter only scopes the remote call. -/
def GetSeasons (hostURL : String) (tvshowid : Int) (x : RpcExchange) :
    Except String (List MediaItem) :=
  if hostURL = "mock" then .ok mockSeasons
  else
    match sendRequest x with
    | .error e => .error e
    | .ok .malformed => .ok []
    | .ok (.listOf items) => .ok items

/-- The hard-coded fixture list of `GetEpisodes` for the `"mock"` host. -/
def mockEpisodes : List MediaItem :=
  [ { ID := 1001, Title := "Pilot", Season := 1, Episode := 1, Runtime := 3480,
      Rating := (92 : Rat) / 10 } ]

/-- `GetEpisodes` (client.go, lines 189-208), same shape as `GetMovies`. -/
def GetEpisodes (hostURL : String) (tvshowid season : Int) (x : RpcExchange) :
    Except String (List MediaItem) :=
  if hostURL = "mock" then .ok mockEpisodes
  else
    match sendRequest x with
    | .error e => .error e
    | .ok .malformed => .ok []
    | .ok (.listOf items) => .ok items

end kodi

/-! ## The library-cache store (internal/database/ops.go, lines 208-237) -/

namespace database

/-- `CachedItem` (ops.go, lines 41-52). -/
structure CachedItem where
  ListID : Int := 0
  KodiID : Int := 0
  MediaType : String := ""
  Title : String := ""
  Year : Int := 0
  Poster : String := ""
  Runtime : Int := 0
  EpisodeCount : Int := 0
  Rating : Rat := 0
  Plot : String := ""
deriving DecidableEq, Inhabited

/-- The `UNIQUE(list_id, kodi_id, media_type)` key of `library_cache`
(db.go, line 121). -/
def cacheKey (r : CachedItem) : Int × Int × String :=
  (r.ListID, r.KodiID, r.MediaType)

/-- `ClearLibraryCache` (ops.go, lines 210-213):
`DELETE FROM library_cache WHERE list_id = ? AND media_type = ?`.
The table is modelled as its rows in rowid order. -/
def ClearLibraryCache (rows : List CachedItem) (listID : Int) (mediaType : String) :
    List CachedItem :=
  rows.filter (fun r => ¬ (r.ListID = listID ∧ r.MediaType = mediaType))

/-- One `INSERT OR REPLACE` against the `UNIQUE(list_id, kodi_id,
media_type)` constraint: a conflicting row is deleted and the new row
appended with a fresh rowid. -/
def insertOrReplace (rows : List CachedItem) (i : CachedItem) : List CachedItem :=
  rows.filter (fun r => cacheKey r ≠ cacheKey i) ++ [i]

/-- `AddToLibraryCache` (ops.go, lines 215-237): all the
`INSERT OR REPLACE` statements of the prepared loop; the enclosing
transaction commits them all or (on failure) none, which the caller
of this pure function models by not applying it. -/
def AddToLibraryCache (rows : List CachedItem) (items : List CachedItem) : List CachedItem :=
  items.foldl insertOrReplace rows

/-- Number of cache rows for one `(list_id, media_type)` slice. -/
def countCacheRows (rows : List CachedItem) (listID : Int) (mediaType : String) : Nat :=
  (rows.filter (fun r => r.ListID = listID ∧ r.MediaType = mediaType)).length

end database

/-! ## The server: poster download and library sync (internal/server) -/

namespace server

/-- `slugify` (server.go, lines 96-103): lower-case, keep only letters
and digits (`Char.isAlpha`/`Char.isDigit` stand for the `unicode`
classes; every concrete input below is ASCII). -/
def slugify (s : String) : String :=
  String.mk ((lowerStr s).data.filter (fun c => c.isAlpha || c.isDigit))

/-- Go map lookup on the `Art` association list. -/
def lookupArt (m : List (String × String)) (k : String) : Option String :=
  (m.find? (fun p => p.1 = k)).map (fun p => p.2)

/-- The poster-reference priority chain of `downloadBestImage`
(server.go, lines 122-136): art "poster" if present and non-empty, else
art "thumb" if present and non-empty, else the flat thumbnail field. -/
def bestImageURI (item : kodi.MediaItem) : String :=
  let p := (lookupArt item.Art "poster").getD ""
  let t := (lookupArt item.Art "thumb").getD ""
  let uri := if p ≠ "" then p else if t ≠ "" then t else ""
  if uri = "" then item.Thumbnail else uri

/-- What one image HTTP round-trip produced: a transport error from
`httpClient.Do`, or a status code (200 meaning the body streams). -/
inductive FetchResult
  | transportError (msg : String)
  | status (code : Int)
deriving DecidableEq, Inhabited

/-- The filesystem/network effects one `downloadBestImage` call can
observe, in program order: the two `os.Stat` probes (before and after
taking the per-file mutex), `http.NewRequest` construction, the fetch,
`os.Create` and `io.Copy`. -/
structure ImgEnv where
  existsFast : Bool := false
  existsLocked : Bool := false
  requestOk : Bool := true
  fetch : FetchResult := FetchResult.status 200
  createOk : Bool := true
  copyOk : Bool := true
deriving DecidableEq, Inhabited

/-- The poster file name `fmt.Sprintf("%s_%s_%d.jpg", ...)` of
server.go, line 142. -/
def posterFileName (mediaType title : String) (year : Int) : String :=
  mediaType ++ "_" ++ slugify title ++ "_" ++ toString year ++ ".jpg"

/-- `downloadBestImage` (server.go, lines 121-211) for one caller, with
its effects read from `env`.  `Except.ok s` models `(s, nil)`;
`Except.error e` models `("", err)`. -/
def downloadBestImage (hostURL : String) (item : kodi.MediaItem) (mediaType : String)
    (env : ImgEnv) : Except String String :=
  let imageURI := bestImageURI item
  if imageURI = "" then .ok ""
  else if hostURL = "mock" then .ok imageURI
  else
    let fileName := posterFileName mediaType item.Title item.Year
    let publicURL := "/api/posters/" ++ fileName
    if env.existsFast then .ok publicURL
    else if env.existsLocked then .ok publicURL
    else if ¬ env.requestOk then .error "invalid request"
    else
      match env.fetch with
      | .transportError m => .error m
      | .status code =>
        if code ≠ 200 then
          if code = 404 then .ok ""
          else .error ("kodi image error: " ++ toString code)
        else if ¬ env.createOk then .error "create failed"
        else if ¬ env.copyOk then .error "copy failed"
        else .ok publicURL

/-- Whether a `downloadBestImage` call with local-file state `ex`
reaches `httpClient.Do` (a network fetch): the poster reference is
non-empty, the host is not the mock sentinel, and the file did not
exist at either probe. -/
def reachesFetch (hostURL : String) (item : kodi.MediaItem) (ex : Bool) : Bool :=
  bestImageURI item ≠ "" && hostURL ≠ "mock" && !ex

/-- A run of callers for the same poster key, serialized by the per-file
mutex of `flightMap` (server.go, lines 146-160): each caller sees the
file state left by the previous one, performs a fetch only when
`reachesFetch`, and the file exists afterwards exactly when `os.Create`
ran (HTTP 200).  Returns the total number of network fetches and each
caller's result. -/
def imageCallers (hostURL : String) (item : kodi.MediaItem) (mediaType : String) :
    List FetchResult → Bool → Nat × List (Except String String)
  | [], _ => (0, [])
  | o :: rest, ex =>
    let env : ImgEnv := { existsFast := ex, existsLocked := ex, fetch := o }
    let r := downloadBestImage hostURL item mediaType env
    let fetched := if reachesFetch hostURL item ex then 1 else 0
    let ex2 := ex || (reachesFetch hostURL item ex && o = FetchResult.status 200)
    let rec_ := imageCallers hostURL item mediaType rest ex2
    (fetched + rec_.1, r :: rec_.2)

/-- The `CachedItem` built by the movie branch of `handleSyncLibrary`
(server.go, lines 470-475). -/
def movieCacheItem (listID : Int) (poster : String) (m : kodi.MediaItem) :
    database.CachedItem :=
  { ListID := listID, KodiID := m.ID, MediaType := "movie", Title := m.Title,
    Year := m.Year, Poster := poster, Runtime := m.Runtime, Rating := m.Rating,
    Plot := m.Plot }

/-- The `CachedItem` built by the tv branch of `handleSyncLibrary`
(server.go, lines 500-505). -/
def showCacheItem (listID : Int) (poster : String) (v : kodi.MediaItem) :
    database.CachedItem :=
  { ListID := listID, KodiID := v.ID, MediaType := "show", Title := v.Title,
    Year := v.Year, Poster := poster, Runtime := v.Runtime,
    EpisodeCount := v.EpisodeCount, Rating := v.Rating, Plot := v.Plot }

/-- The movie fan-out of `handleSyncLibrary` (server.go, lines 457-478):
one worker per fetched movie; the worker's `downloadBestImage` error is
discarded (`poster, _ :=`), and every worker appends exactly one
`CachedItem` under the aggregation mutex — nothing is skipped.  The
multiset of appended rows is schedule-independent; it is modelled here
in input order. -/
def syncMovieItems (listID : Int) (poster : kodi.MediaItem → String)
    (movies : List kodi.MediaItem) : List database.CachedItem :=
  movies.map (fun m => movieCacheItem listID (poster m) m)

/-- The tv fan-out of `handleSyncLibrary` (server.go, lines 487-508). -/
def syncShowItems (listID : Int) (poster : kodi.MediaItem → String)
    (shows : List kodi.MediaItem) : List database.CachedItem :=
  shows.map (fun v => showCacheItem listID (poster v) v)

/-- The persistence tail of `handleSyncLibrary` (server.go, lines
511-529): `ClearLibraryCache` runs as its own statement (a failure is
only logged and execution continues), then `AddToLibraryCache` runs in
its own transaction (all-or-nothing; a failure returns HTTP 500).  The
returned flag is whether the handler reports `{"status": "success"}`. -/
def handleSyncSave (rows : List database.CachedItem) (listID : Int) (dbType : String)
    (items : List database.CachedItem) (clearOk insertOk : Bool) :
    List database.CachedItem × Bool :=
  let rows1 := if clearOk then database.ClearLibraryCache rows listID dbType else rows
  if insertOk then (database.AddToLibraryCache rows1 items, true) else (rows1, false)

end server

/-! ## The schema migrator (internal/database/db.go, lines 32-175)

The store is modelled at schema level: which tables exist (in creation
order) and which columns each has, plus the rows of `schema_version`.
Row contents of the other tables play no role in any claim about the
migrator.  A statement that references a missing column fails at prepare
time exactly as in SQLite. -/

namespace database

/-- The schema of an SQLite database: tables with their column names,
plus the contents of the `schema_version` table. -/
structure SQLiteState where
  tables : List (String × List String) := []
  versionRows : List Int := []
deriving DecidableEq, Inhabited

/-- Columns of a table, if it exists. -/
def tableCols (st : SQLiteState) (name : String) : Option (List String) :=
  (st.tables.find? (fun p => p.1 = name)).map (fun p => p.2)

/-- `SELECT name FROM sqlite_master WHERE type='table' AND name=?`
succeeds iff the table exists. -/
def hasTable (st : SQLiteState) (name : String) : Bool :=
  (tableCols st name).isSome

/-- A probing `SELECT col FROM tbl LIMIT 1` succeeds iff the column
exists. -/
def hasColumn (st : SQLiteState) (name col : String) : Bool :=
  match tableCols st name with
  | some cols => cols.contains col
  | none => false

/-- `CREATE TABLE IF NOT EXISTS`. -/
def createTableIfNotExists (st : SQLiteState) (name : String) (cols : List String) :
    SQLiteState :=
  if hasTable st name then st else { st with tables := st.tables ++ [(name, cols)] }

/-- `ALTER TABLE tbl RENAME COLUMN old TO new`: fails when the table or
the old column is missing. -/
def renameColumn (st : SQLiteState) (tbl oldc newc : String) : Except String SQLiteState :=
  if ¬ hasTable st tbl then .error ("no such table: " ++ tbl)
  else if ¬ hasColumn st tbl oldc then .error ("no such column: " ++ oldc)
  else
    .ok { st with
      tables := st.tables.map (fun p =>
        if p.1 = tbl then (p.1, p.2.map (fun c => if c = oldc then newc else c)) else p) }

/-- `ALTER TABLE tbl ADD COLUMN col ...`: fails when the table is missing
or the column already exists. -/
def addColumn (st : SQLiteState) (tbl col : String) : Except String SQLiteState :=
  if ¬ hasTable st tbl then .error ("no such table: " ++ tbl)
  else if hasColumn st tbl col then .error ("duplicate column name: " ++ col)
  else
    .ok { st with
      tables := st.tables.map (fun p => if p.1 = tbl then (p.1, p.2 ++ [col]) else p) }

/-- An `UPDATE tbl SET c1 = ... WHERE c2 = ...` prepares only when every
referenced column exists; the row effects are not tracked. -/
def execUpdateCols (st : SQLiteState) (tbl : String) (cols : List String) :
    Except String SQLiteState :=
  if ¬ hasTable st tbl then .error ("no such table: " ++ tbl)
  else
    match cols.find? (fun c => ¬ hasColumn st tbl c) with
    | some c => .error ("no such column: " ++ c)
    | none => .ok st

/-- Migration 1 (db.go, lines 81-130): create `lists`, `items` and
`library_cache` with the v1.0.0 column layout (`lists` still has `type`,
no `name`, no `content_type`). -/
def migration1 (st : SQLiteState) : Except String SQLiteState :=
  let st := createTableIfNotExists st "lists"
    ["id", "group_name", "type", "kodi_host", "username", "password"]
  let st := createTableIfNotExists st "items"
    ["id", "list_id", "kodi_id", "media_type", "title", "year", "poster_path",
     "runtime", "episode_count", "season", "rating", "sort_order", "added_at"]
  let st := createTableIfNotExists st "library_cache"
    ["id", "list_id", "kodi_id", "media_type", "title", "year", "poster_path",
     "runtime", "episode_count", "rating", "plot"]
  .ok st

/-- Migration 2 (db.go, lines 131-147), statement for statement:
first `UPDATE lists SET content_type = 'tv' WHERE name = 'tv'`, then
`ALTER TABLE lists RENAME COLUMN type TO name`, then
`ALTER TABLE lists ADD COLUMN content_type TEXT DEFAULT 'movie'`. -/
def migration2 (st : SQLiteState) : Except String SQLiteState :=
  match execUpdateCols st "lists" ["content_type", "name"] with
  | .error e => .error e
  | .ok st =>
    match renameColumn st "lists" "type" "name" with
    | .error e => .error e
    | .ok st => addColumn st "lists" "content_type"

/-- `COALESCE(MAX(version), 0)` over the `schema_version` rows. -/
def maxVersion (st : SQLiteState) : Int :=
  st.versionRows.foldl max 0

/-- The legacy-detection step of `migrate` (db.go, lines 47-74): when
the recorded version is zero and a `lists` table exists, probe for the
`type` and `name` columns, prefer the newer layout, and persist the
inferred version. -/
def detectVersion (st : SQLiteState) (version : Int) : Int × SQLiteState :=
  if version = 0 ∧ hasTable st "lists" then
    let hasType := hasColumn st "lists" "type"
    let hasName := hasColumn st "lists" "name"
    let v : Int := if hasName then 2 else if hasType then 1 else 0
    (v, { st with versionRows := st.versionRows ++ [v] })
  else (version, st)

/-- One migration step inside its transaction (db.go, lines 150-172):
run `migrations[i]`, then record version `i+1`; a failure rolls the
whole step back. -/
def applyMigration (st : SQLiteState) (i : Int) : Except String SQLiteState :=
  match (if i = 0 then migration1 st else migration2 st) with
  | .error e => .error ("migration " ++ toString (i + 1) ++ " failed: " ++ e)
  | .ok st2 => .ok { st2 with versionRows := st2.versionRows ++ [i + 1] }

/-- `for i := version; i < len(migrations); i++` with
`len(migrations) = 2`. -/
def migrateLoop (st : SQLiteState) (i : Int) : Nat → Except String SQLiteState
  | 0 => .ok st
  | fuel + 1 =>
    if i < 2 then
      match applyMigration st i with
      | .error e => .error e
      | .ok st2 => migrateLoop st2 (i + 1) fuel
    else .ok st

/-- `migrate` (db.go, lines 32-175): ensure `schema_version` exists, read
the recorded version, run legacy detection when it is zero, then apply
the remaining migrations in order, stopping startup at the first
failure. -/
def migrate (st : SQLiteState) : Except String SQLiteState :=
  let st := createTableIfNotExists st "schema_version" ["version"]
  let version := maxVersion st
  let d := detectVersion st version
  migrateLoop d.2 d.1 3

/-- A fresh, empty database file. -/
def emptyDB : SQLiteState := {}

/-- A v1.0.0 database written by the pre-migrator `createTables`
(db.go legacy copy, lines 207-259): all three tables in the old layout
(`lists` has `type`, no `name`, no `content_type`), and no
`schema_version` table. -/
def legacyV1DB : SQLiteState :=
  { tables :=
      [("lists", ["id", "group_name", "type", "kodi_host", "username", "password"]),
       ("items", ["id", "list_id", "kodi_id", "media_type", "title", "year",
                  "poster_path", "runtime", "episode_count", "season", "rating",
                  "sort_order", "added_at"]),
       ("library_cache", ["id", "list_id", "kodi_id", "media_type", "title", "year",
                          "poster_path", "runtime", "episode_count", "rating", "plot"])],
    versionRows := [] }

end database

/-! ## Spec-side reference ranking and concrete inputs -/

namespace kodi

end kodi

namespace kodi

/-- Reference definition of the Levenshtein edit distance with unit
costs, by the textbook recursion; declared to measure the DP inside
`levenshtein` against the spec's words ("edit distance
(Levenshtein)"). -/
def levSpec : List Char → List Char → Nat
  | [], ys => ys.length
  | xs, [] => xs.length
  | x :: xs, y :: ys =>
    min (levSpec xs (y :: ys) + 1)
      (min (levSpec (x :: xs) ys + 1) (levSpec xs ys + (if x = y then 0 else 1)))
termination_by xs ys => xs.length + ys.length

/-- The tail of one DP row, as `levSpec` values: `S` is the reversed
prefix of `r1` already consumed, `P` the reversed prefix of `r2` this
row corresponds to, and the scan continues through the remaining `u`;
the entry for the next rune `c1` is the distance between the consumed
prefix extended by `c1` (reversed: `c1 :: S`) and `P`. -/
def levRowSpec (S P : List Char) : List Char → List Nat
  | [] => []
  | c1 :: u => levSpec (c1 :: S) P :: levRowSpec (c1 :: S) P u

/-- An edit alignment between two rune lists together with its total
cost: delete a rune, insert a rune, or match/substitute a pair.  The
Levenshtein distance is the least cost of such an alignment. -/
inductive Aligns : List Char → List Char → Nat → Prop
  | nil : Aligns [] [] 0
  | del {xs ys n} (x : Char) : Aligns xs ys n → Aligns (x :: xs) ys (n + 1)
  | ins {xs ys n} (y : Char) : Aligns xs ys n → Aligns xs (y :: ys) (n + 1)
  | sub {xs ys n} (x y : Char) : Aligns xs ys n →
      Aligns (x :: xs) (y :: ys) (n + (if x = y then 0 else 1))

end kodi

/-- A payload carrying none of the four identity fields. -/
def c6Raw : kodi.RawItem := { title := "Ghost" }

/-- One existing cache row for list 1, kind movie. -/
def c1OldRows : List database.CachedItem :=
  [{ ListID := 1, KodiID := 100, MediaType := "movie", Title := "Old" }]

/-- One freshly fetched entity for the same slice, with a new remote
id. -/
def c1NewItems : List database.CachedItem :=
  [{ ListID := 1, KodiID := 200, MediaType := "movie", Title := "New" }]

/-- An entity whose poster reference is present, for the image-cache
runs. -/
def c9Item : kodi.MediaItem :=
  { Title := "The Matrix", Year := 1999, Thumbnail := "image://poster1" }

/-! # Theorems -/

namespace gosort

/-- Moving `t[k]` to the front while writing `x` into slot `k` is a
permutation of putting `x` in front. -/
theorem cons_set_perm {β : Type _} :
    ∀ (t : List β) (k : Nat) (hk : k < t.length) (x : β),
      List.Perm (t.get ⟨k, hk⟩ :: t.set k x) (x :: t) := by
  intro t
  induction t with
  | nil => intro k hk x; simp at hk
  | cons b t ih =>
    intro k hk x
    cases k with
    | zero => exact List.Perm.swap x b t
    | succ m =>
      have hm : m < t.length := by simpa using hk
      have h1 : List.Perm (t.get ⟨m, hm⟩ :: b :: t.set m x) (b :: t.get ⟨m, hm⟩ :: t.set m x) :=
        List.Perm.swap b (t.get ⟨m, hm⟩) (t.set m x)
      have h2 : List.Perm (b :: t.get ⟨m, hm⟩ :: t.set m x) (b :: x :: t) :=
        List.Perm.cons b (ih m hm x)
      exact (h1.trans h2).trans (List.Perm.swap x b t)

/-- The two `set`s that realize a swap produce a permutation. -/
theorem set_set_swap_perm {β : Type _} :
    ∀ (l : List β) (i j : Nat) (hi : i < l.length) (hj : j < l.length),
      List.Perm ((l.set i (l.get ⟨j, hj⟩)).set j (l.get ⟨i, hi⟩)) l := by
  intro l
  induction l with
  | nil => intro i j hi hj; simp at hi
  | cons a t ih =>
    intro i j hi hj
    cases i with
    | zero =>
      cases j with
      | zero => simp
      | succ m =>
        have hm : m < t.length := by simpa using hj
        simpa using cons_set_perm t m hm a
    | succ n =>
      have hn : n < t.length := by simpa using hi
      cases j with
      | zero => simpa using cons_set_perm t n hn a
      | succ m =>
        have hm : m < t.length := by simpa using hj
        simpa using List.Perm.cons a (ih n m hn hm)

theorem swapL_perm (l : List α) (i j : Int) : List.Perm (swapL l i j) l := by
  unfold swapL
  split
  · next h => exact set_set_swap_perm l i.toNat j.toNat h.2.2.1 h.2.2.2
  · exact List.Perm.refl l

theorem insInner_perm [Inhabited α] (less : α → α → Bool) (a : Int) :
    ∀ (fuel : Nat) (l : List α) (j : Int), List.Perm (insInner less l j a fuel) l := by
  intro fuel
  induction fuel with
  | zero => intro l j; exact List.Perm.refl l
  | succ n ih =>
    intro l j
    simp only [insInner]
    split
    · exact (ih _ _).trans (swapL_perm l j (j - 1))
    · exact List.Perm.refl l

theorem insOuter_perm [Inhabited α] (less : α → α → Bool) (b a : Int) :
    ∀ (fuel : Nat) (l : List α) (i : Int), List.Perm (insOuter less l i b a fuel) l := by
  intro fuel
  induction fuel with
  | zero => intro l i; exact List.Perm.refl l
  | succ n ih =>
    intro l i
    simp only [insOuter]
    split
    · exact (ih _ _).trans (insInner_perm less a _ l i)
    · exact List.Perm.refl l

theorem insertionSortGo_perm [Inhabited α] (less : α → α → Bool) (l : List α) (a b : Int) :
    List.Perm (insertionSortGo less l a b) l :=
  insOuter_perm less b a _ l (a + 1)

theorem siftDownLoop_perm [Inhabited α] (less : α → α → Bool) (hi first : Int) :
    ∀ (fuel : Nat) (l : List α) (root : Int),
      List.Perm (siftDownLoop less l root hi first fuel) l := by
  intro fuel
  induction fuel with
  | zero => intro l root; exact List.Perm.refl l
  | succ n ih =>
    intro l root
    simp only [siftDownLoop]
    split
    · exact List.Perm.refl l
    · split
      · split
        · exact List.Perm.refl l
        · exact (ih _ _).trans (swapL_perm l _ _)
      · split
        · exact List.Perm.refl l
        · exact (ih _ _).trans (swapL_perm l _ _)

theorem heapBuild_perm [Inhabited α] (less : α → α → Bool) (hi first : Int) :
    ∀ (fuel : Nat) (l : List α) (i : Int),
      List.Perm (heapBuild less l i hi first fuel) l := by
  intro fuel
  induction fuel with
  | zero => intro l i; exact List.Perm.refl l
  | succ n ih =>
    intro l i
    simp only [heapBuild]
    split
    · exact (ih _ _).trans (siftDownLoop_perm less hi first _ l i)
    · exact List.Perm.refl l

theorem heapPop_perm [Inhabited α] (less : α → α → Bool) (first : Int) :
    ∀ (fuel : Nat) (l : List α) (i : Int),
      List.Perm (heapPop less l i first fuel) l := by
  intro fuel
  induction fuel with
  | zero => intro l i; exact List.Perm.refl l
  | succ n ih =>
    intro l i
    simp only [heapPop]
    split
    · exact ((ih _ _).trans (siftDownLoop_perm less i first _ _ 0)).trans
        (swapL_perm l first (first + i))
    · exact List.Perm.refl l

theorem heapSortGo_perm [Inhabited α] (less : α → α → Bool) (l : List α) (a b : Int) :
    List.Perm (heapSortGo less l a b) l := by
  unfold heapSortGo
  exact (heapPop_perm less a _ _ _).trans (heapBuild_perm less (b - a) a _ l _)

theorem reverseRangeGo_perm :
    ∀ (fuel : Nat) (l : List α) (i j : Int), List.Perm (reverseRangeGo l i j fuel) l := by
  intro fuel
  induction fuel with
  | zero => intro l i j; exact List.Perm.refl l
  | succ n ih =>
    intro l i j
    simp only [reverseRangeGo]
    split
    · exact (ih _ _ _).trans (swapL_perm l i j)
    · exact List.Perm.refl l

theorem breakLoop_perm (idx a : Int) (len : Int) :
    ∀ (fuel : Nat) (l : List α) (random modulus : Nat) (i : Int),
      List.Perm (breakLoop l idx a len random modulus fuel i) l := by
  intro fuel
  induction fuel with
  | zero => intro l random modulus i; exact List.Perm.refl l
  | succ n ih =>
    intro l random modulus i
    simp only [breakLoop]
    split
    · exact (ih _ _ _ _).trans (swapL_perm l _ _)
    · exact List.Perm.refl l

theorem breakPatternsGo_perm (l : List α) (a b : Int) :
    List.Perm (breakPatternsGo l a b) l := by
  simp only [breakPatternsGo]
  split
  · exact breakLoop_perm _ _ _ _ l _ _ 0
  · exact List.Perm.refl l

theorem semiInsLoop_perm [Inhabited α] (less : α → α → Bool) (a b : Int) :
    ∀ (steps : Nat) (l : List α) (i : Int),
      List.Perm (semiInsLoop less l i a b steps).1 l := by
  intro steps
  induction steps with
  | zero => intro l i; exact List.Perm.refl l
  | succ n ih =>
    intro l i
    simp only [semiInsLoop]
    split
    · exact List.Perm.refl l
    · split
      · exact List.Perm.refl l
      · refine (ih _ _).trans ?_
        have hshr : ∀ (m : List α) (j : Int) (fuel : Nat),
            List.Perm (shiftRightGo less m j b fuel) m := by
          intro m j fuel
          induction fuel generalizing m j with
          | zero => exact List.Perm.refl m
          | succ k ihf =>
            simp only [shiftRightGo]
            split
            · exact (ihf _ _).trans (swapL_perm m j (j - 1))
            · exact List.Perm.refl m
        have hshl : ∀ (m : List α) (j : Int) (fuel : Nat),
            List.Perm (shiftLeftGo less m j fuel) m := by
          intro m j fuel
          induction fuel generalizing m j with
          | zero => exact List.Perm.refl m
          | succ k ihf =>
            simp only [shiftLeftGo]
            split
            · exact (ihf _ _).trans (swapL_perm m j (j - 1))
            · exact List.Perm.refl m
        have h1 : List.Perm (swapL l (scanSorted less l i b (l.length + 1))
            (scanSorted less l i b (l.length + 1) - 1)) l := swapL_perm l _ _
        refine List.Perm.trans ?_ h1
        set l1 := swapL l (scanSorted less l i b (l.length + 1))
          (scanSorted less l i b (l.length + 1) - 1) with hl1
        have h2 : List.Perm
            (if scanSorted less l i b (l.length + 1) - a ≥ 2 then
              shiftLeftGo less l1 (scanSorted less l i b (l.length + 1) - 1) (l1.length + 1)
            else l1) l1 := by
          split
          · exact hshl _ _ _
          · exact List.Perm.refl l1
        refine List.Perm.trans ?_ h2
        split
        · exact hshr _ _ _
        · exact List.Perm.refl _

theorem semiInsertionSortGo_perm [Inhabited α] (less : α → α → Bool) (l : List α) (a b : Int) :
    List.Perm (semiInsertionSortGo less l a b).1 l :=
  semiInsLoop_perm less a b 5 l (a + 1)

theorem pdqSemiStage_perm [Inhabited α] (less : α → α → Bool) (go : Bool) (l : List α)
    (a b : Int) : List.Perm (pdqSemiStage less go l a b).1 l := by
  unfold pdqSemiStage
  split
  · exact semiInsertionSortGo_perm less l a b
  · exact List.Perm.refl l

theorem pdqBreakStage_perm (wasBalanced : Bool) (l : List α) (a b limit : Int) :
    List.Perm (pdqBreakStage wasBalanced l a b limit).1 l := by
  unfold pdqBreakStage
  split
  · exact breakPatternsGo_perm l a b
  · exact List.Perm.refl l

theorem pdqReverseStage_perm (l : List α) (a b : Int) (pv : Int × SortedHint) :
    List.Perm (pdqReverseStage l a b pv).1 l := by
  unfold pdqReverseStage
  split
  · exact reverseRangeGo_perm _ l a (b - 1)
  · exact List.Perm.refl l

theorem partMainLoop_perm [Inhabited α] (less : α → α → Bool) (a : Int) :
    ∀ (fuel : Nat) (l : List α) (i j : Int),
      List.Perm (partMainLoop less l i j a fuel).1 l := by
  intro fuel
  induction fuel with
  | zero => intro l i j; exact List.Perm.refl l
  | succ n ih =>
    intro l i j
    simp only [partMainLoop]
    split
    · exact List.Perm.refl l
    · exact (ih _ _ _).trans (swapL_perm l _ _)

theorem partitionGo_perm [Inhabited α] (less : α → α → Bool) (l : List α) (a b pivot : Int) :
    List.Perm (partitionGo less l a b pivot).1 l := by
  simp only [partitionGo]
  split
  · exact (swapL_perm _ _ _).trans (swapL_perm l a pivot)
  · refine ((swapL_perm _ _ _).trans ?_).trans (swapL_perm l a pivot)
    exact (partMainLoop_perm less a _ _ _ _).trans (swapL_perm _ _ _)

theorem partEqLoop_perm [Inhabited α] (less : α → α → Bool) (a : Int) :
    ∀ (fuel : Nat) (l : List α) (i j : Int),
      List.Perm (partEqLoop less l i j a fuel).1 l := by
  intro fuel
  induction fuel with
  | zero => intro l i j; exact List.Perm.refl l
  | succ n ih =>
    intro l i j
    simp only [partEqLoop]
    split
    · exact List.Perm.refl l
    · exact (ih _ _ _).trans (swapL_perm l _ _)

theorem partitionEqualGo_perm [Inhabited α] (less : α → α → Bool) (l : List α)
    (a b pivot : Int) : List.Perm (partitionEqualGo less l a b pivot).1 l := by
  unfold partitionEqualGo
  exact (partEqLoop_perm less a _ _ _ _).trans (swapL_perm l a pivot)

theorem pdqsortLoop_perm [Inhabited α] (less : α → α → Bool) :
    ∀ (fuel : Nat) (l : List α) (a b limit : Int) (wasBalanced wasPartitioned : Bool),
      List.Perm (pdqsortLoop less l a b limit wasBalanced wasPartitioned fuel) l := by
  intro fuel
  induction fuel with
  | zero => intro l a b limit wb wp; exact List.Perm.refl l
  | succ n ih =>
    intro l a b limit wb wp
    simp only [pdqsortLoop]
    split
    · exact insertionSortGo_perm less l a b
    · split
      · exact heapSortGo_perm less l a b
      · have hstage : ∀ g : Bool, List.Perm
            (pdqSemiStage less g
              (pdqReverseStage (pdqBreakStage wb l a b limit).1 a b
                (choosePivotGo less (pdqBreakStage wb l a b limit).1 a b)).1 a b).1 l :=
          fun g =>
            ((pdqSemiStage_perm less g _ a b).trans
              (pdqReverseStage_perm _ a b _)).trans (pdqBreakStage_perm wb l a b limit)
        split
        · exact hstage _
        · split
          · exact (ih _ _ _ _ _ _).trans
              ((partitionEqualGo_perm less _ a b _).trans (hstage _))
          · split
            · exact ((ih _ _ _ _ _ _).trans
                ((ih _ _ _ _ _ _).trans ((partitionGo_perm less _ a b _).trans (hstage _))))
            · exact ((ih _ _ _ _ _ _).trans
                ((ih _ _ _ _ _ _).trans ((partitionGo_perm less _ a b _).trans (hstage _))))

theorem goSortSlice_perm [Inhabited α] (less : α → α → Bool) (xs : List α) :
    List.Perm (goSortSlice less xs) xs :=
  pdqsortLoop_perm less _ xs _ _ _ _ _

theorem goSortSlice_length [Inhabited α] (less : α → α → Bool) (xs : List α) :
    (goSortSlice less xs).length = xs.length :=
  (goSortSlice_perm less xs).length_eq

end gosort

/-! ## Structure of `FuzzySearch`'s output -/

namespace kodi

/-- The length of the output is the admitted count capped at 20. -/
theorem FuzzySearch_length (items : List MediaItem) (query : String) :
    (FuzzySearch items query).length = min (fuzzyScored items (lowerStr query)).length 20 := by
  simp only [FuzzySearch]
  have hlen : ((gosort.goSortSlice (fun x y : MediaItem × Int => x.2 < y.2)
      (fuzzyScored items (lowerStr query))).map Prod.fst).length
      = (fuzzyScored items (lowerStr query)).length := by
    rw [List.length_map, gosort.goSortSlice_length]
  split
  · next h =>
    rw [List.length_take, hlen] at *
    omega
  · next h =>
    rw [hlen] at *
    omega

/-- Every output entry was admitted by the scoring loop. -/
theorem FuzzySearch_mem {items : List MediaItem} {query : String} {x : MediaItem}
    (hx : x ∈ FuzzySearch items query) :
    ∃ s, scoreItem (lowerStr query) x = some s := by
  simp only [FuzzySearch] at hx
  have hx' : x ∈ (gosort.goSortSlice (fun x y : MediaItem × Int => x.2 < y.2)
      (fuzzyScored items (lowerStr query))).map Prod.fst := by
    revert hx
    split
    · intro hx; exact List.take_subset 20 _ hx
    · intro hx; exact hx
  obtain ⟨p, hp, hpx⟩ := List.mem_map.1 hx'
  have hp' : p ∈ fuzzyScored items (lowerStr query) :=
    (gosort.goSortSlice_perm _ _).subset hp
  obtain ⟨a, _, ha⟩ := List.mem_filterMap.1 hp'
  obtain ⟨s, hs, hpair⟩ := Option.map_eq_some'.1 ha
  refine ⟨s, ?_⟩
  have : a = x := by
    rw [← hpx, ← hpair]
  rw [← this]
  exact hs

end kodi

/-! ## Decode-stage projections -/

namespace kodi

theorem MediaItem.runtimeStage_ID (m : MediaItem) : (MediaItem.runtimeStage m).ID = m.ID := by
  unfold MediaItem.runtimeStage
  split
  · split
    · rfl
    · cases hsd : m.StreamDetails with
      | none => rfl
      | some sd =>
        cases hv : sd.Video with
        | nil => simp [hv]
        | cons v t => simp [hv]
  · rfl

theorem MediaItem.runtimeStage_Episode (m : MediaItem) : (MediaItem.runtimeStage m).Episode = m.Episode := by
  unfold MediaItem.runtimeStage
  split
  · split
    · rfl
    · cases hsd : m.StreamDetails with
      | none => rfl
      | some sd =>
        cases hv : sd.Video with
        | nil => simp [hv]
        | cons v t => simp [hv]
  · rfl

theorem MediaItem.runtimeStage_EpisodeCount (m : MediaItem) :
    (MediaItem.runtimeStage m).EpisodeCount = m.EpisodeCount := by
  unfold MediaItem.runtimeStage
  split
  · split
    · rfl
    · cases hsd : m.StreamDetails with
      | none => rfl
      | some sd =>
        cases hv : sd.Video with
        | nil => simp [hv]
        | cons v t => simp [hv]
  · rfl

theorem MediaItem.titleStage_ID (m : MediaItem) : (MediaItem.titleStage m).ID = m.ID := by
  unfold MediaItem.titleStage; split <;> rfl

theorem MediaItem.titleStage_Episode (m : MediaItem) : (MediaItem.titleStage m).Episode = m.Episode := by
  unfold MediaItem.titleStage; split <;> rfl

theorem MediaItem.titleStage_EpisodeCount (m : MediaItem) :
    (MediaItem.titleStage m).EpisodeCount = m.EpisodeCount := by
  unfold MediaItem.titleStage; split <;> rfl

/-- The post-identity stages never touch the identity or the
kind-specific fields. -/
theorem UnmarshalJSON_identity_fields (raw : RawItem) :
    (MediaItem.UnmarshalJSON raw).ID = (MediaItem.identityStage raw (MediaItem.baseDecode raw)).ID ∧
    (MediaItem.UnmarshalJSON raw).Episode = (MediaItem.identityStage raw (MediaItem.baseDecode raw)).Episode ∧
    (MediaItem.UnmarshalJSON raw).EpisodeCount
      = (MediaItem.identityStage raw (MediaItem.baseDecode raw)).EpisodeCount := by
  unfold MediaItem.UnmarshalJSON
  exact ⟨by rw [MediaItem.titleStage_ID, MediaItem.runtimeStage_ID],
         by rw [MediaItem.titleStage_Episode, MediaItem.runtimeStage_Episode],
         by rw [MediaItem.titleStage_EpisodeCount, MediaItem.runtimeStage_EpisodeCount]⟩

end kodi

/-! ## The DP in `levenshtein` computes the Levenshtein distance -/

namespace kodi

theorem levSpec_nil_left (ys : List Char) : levSpec [] ys = ys.length := by
  simp [levSpec]

theorem levSpec_nil_right (xs : List Char) : levSpec xs [] = xs.length := by
  cases xs <;> simp [levSpec]

theorem levSpec_cons_cons (x y : Char) (xs ys : List Char) :
    levSpec (x :: xs) (y :: ys) =
      min (levSpec xs (y :: ys) + 1)
        (min (levSpec (x :: xs) ys + 1) (levSpec xs ys + (if x = y then 0 else 1))) := by
  simp [levSpec]

theorem levSpec_le_del (x : Char) (xs ys : List Char) :
    levSpec (x :: xs) ys ≤ levSpec xs ys + 1 := by
  cases ys with
  | nil => simp [levSpec_nil_right]
  | cons y ys =>
    rw [levSpec_cons_cons]
    exact Nat.min_le_left _ _

theorem levSpec_le_ins (y : Char) (xs ys : List Char) :
    levSpec xs (y :: ys) ≤ levSpec xs ys + 1 := by
  cases xs with
  | nil => simp [levSpec_nil_left]
  | cons x xs =>
    rw [levSpec_cons_cons]
    exact le_trans (Nat.min_le_right _ _) (Nat.min_le_left _ _)

theorem levSpec_le_sub (x y : Char) (xs ys : List Char) :
    levSpec (x :: xs) (y :: ys) ≤ levSpec xs ys + (if x = y then 0 else 1) := by
  rw [levSpec_cons_cons]
  exact le_trans (Nat.min_le_right _ _) (Nat.min_le_right _ _)

theorem aligns_nil_left (ys : List Char) : Aligns [] ys ys.length := by
  induction ys with
  | nil => exact Aligns.nil
  | cons y ys ih => exact Aligns.ins y ih

theorem aligns_nil_right (xs : List Char) : Aligns xs [] xs.length := by
  induction xs with
  | nil => exact Aligns.nil
  | cons x xs ih => exact Aligns.del x ih

/-- There is always an alignment whose cost is `levSpec`. -/
theorem aligns_levSpec :
    ∀ (N : Nat) (a b : List Char), a.length + b.length ≤ N →
      Aligns a b (levSpec a b) := by
  intro N
  induction N with
  | zero =>
    intro a b h
    cases a with
    | cons x xs => simp at h
    | nil =>
      cases b with
      | cons y ys => simp at h
      | nil => exact (levSpec_nil_left []) ▸ Aligns.nil
  | succ N ih =>
    intro a b h
    cases a with
    | nil => exact (levSpec_nil_left b) ▸ aligns_nil_left b
    | cons x xs =>
      cases b with
      | nil => exact (levSpec_nil_right (x :: xs)) ▸ aligns_nil_right (x :: xs)
      | cons y ys =>
        have h1 : xs.length + (y :: ys).length ≤ N := by
          simp at h ⊢
          omega
        have h2 : (x :: xs).length + ys.length ≤ N := by
          simp at h ⊢
          omega
        have h3 : xs.length + ys.length ≤ N := by
          simp at h ⊢
          omega
        rw [levSpec_cons_cons]
        rcases show
            min (levSpec xs (y :: ys) + 1)
              (min (levSpec (x :: xs) ys + 1)
                (levSpec xs ys + (if x = y then 0 else 1)))
              = levSpec xs (y :: ys) + 1 ∨
            min (levSpec xs (y :: ys) + 1)
              (min (levSpec (x :: xs) ys + 1)
                (levSpec xs ys + (if x = y then 0 else 1)))
              = levSpec (x :: xs) ys + 1 ∨
            min (levSpec xs (y :: ys) + 1)
              (min (levSpec (x :: xs) ys + 1)
                (levSpec xs ys + (if x = y then 0 else 1)))
              = levSpec xs ys + (if x = y then 0 else 1) from by omega
          with hm | hm | hm
        · rw [hm]; exact Aligns.del x (ih xs (y :: ys) h1)
        · rw [hm]; exact Aligns.ins y (ih (x :: xs) ys h2)
        · rw [hm]; exact Aligns.sub x y (ih xs ys h3)

/-- No alignment costs less than `levSpec`. -/
theorem aligns_ge {a b : List Char} {n : Nat} (h : Aligns a b n) : levSpec a b ≤ n := by
  induction h with
  | nil => simp [levSpec_nil_left]
  | del x h ih => exact le_trans (levSpec_le_del _ _ _) (Nat.add_le_add_right ih 1)
  | ins y h ih => exact le_trans (levSpec_le_ins _ _ _) (Nat.add_le_add_right ih 1)
  | sub x y h ih => exact le_trans (levSpec_le_sub _ _ _ _) (Nat.add_le_add_right ih _)

theorem aligns_del_snoc {a b : List Char} {n : Nat} (x : Char) (h : Aligns a b n) :
    Aligns (a ++ [x]) b (n + 1) := by
  induction h with
  | nil => exact Aligns.del x Aligns.nil
  | del w h ih => exact Nat.add_right_comm _ 1 1 ▸ Aligns.del w ih
  | ins w h ih => exact Nat.add_right_comm _ 1 1 ▸ Aligns.ins w ih
  | sub w v h ih => exact Nat.add_right_comm _ _ 1 ▸ Aligns.sub w v ih

theorem aligns_ins_snoc {a b : List Char} {n : Nat} (y : Char) (h : Aligns a b n) :
    Aligns a (b ++ [y]) (n + 1) := by
  induction h with
  | nil => exact Aligns.ins y Aligns.nil
  | del w h ih => exact Nat.add_right_comm _ 1 1 ▸ Aligns.del w ih
  | ins w h ih => exact Nat.add_right_comm _ 1 1 ▸ Aligns.ins w ih
  | sub w v h ih => exact Nat.add_right_comm _ _ 1 ▸ Aligns.sub w v ih

theorem aligns_sub_snoc {a b : List Char} {n : Nat} (x y : Char) (h : Aligns a b n) :
    Aligns (a ++ [x]) (b ++ [y]) (n + (if x = y then 0 else 1)) := by
  induction h with
  | nil => exact Aligns.sub x y Aligns.nil
  | del w h ih => exact Nat.add_right_comm _ _ 1 ▸ Aligns.del w ih
  | ins w h ih => exact Nat.add_right_comm _ _ 1 ▸ Aligns.ins w ih
  | sub w v h ih => exact Nat.add_right_comm _ _ _ ▸ Aligns.sub w v ih

/-- Reversing both sides of an alignment keeps its cost. -/
theorem aligns_reverse {a b : List Char} {n : Nat} (h : Aligns a b n) :
    Aligns a.reverse b.reverse n := by
  induction h with
  | nil => exact Aligns.nil
  | del x h ih => exact List.reverse_cons x _ ▸ aligns_del_snoc x ih
  | ins y h ih => exact List.reverse_cons y _ ▸ aligns_ins_snoc y ih
  | sub x y h ih =>
    exact List.reverse_cons x _ ▸ List.reverse_cons y _ ▸ aligns_sub_snoc x y ih

theorem aligns_symm {a b : List Char} {n : Nat} (h : Aligns a b n) : Aligns b a n := by
  induction h with
  | nil => exact Aligns.nil
  | del x h ih => exact Aligns.ins x ih
  | ins y h ih => exact Aligns.del y ih
  | sub x y h ih =>
    have hc : (if y = x then 0 else 1) = (if x = y then 0 else 1) := by
      by_cases hxy : x = y
      · simp [hxy]
      · rw [if_neg hxy, if_neg (fun hyx : y = x => hxy hyx.symm)]
    exact hc ▸ Aligns.sub y x ih

/-- The Levenshtein distance is invariant under reversing both
strings. -/
theorem levSpec_reverse (a b : List Char) :
    levSpec a.reverse b.reverse = levSpec a b := by
  have h1 : levSpec a.reverse b.reverse ≤ levSpec a b :=
    aligns_ge (aligns_reverse (aligns_levSpec (a.length + b.length) a b le_rfl))
  have h2 : levSpec a b ≤ levSpec a.reverse b.reverse := by
    have := aligns_ge (aligns_reverse
      (aligns_levSpec (a.reverse.length + b.reverse.length) a.reverse b.reverse le_rfl))
    simpa using this
  exact le_antisymm h1 h2

/-- The Levenshtein distance is symmetric. -/
theorem levSpec_comm (a b : List Char) : levSpec a b = levSpec b a := by
  have h1 : levSpec a b ≤ levSpec b a :=
    aligns_ge (aligns_symm (aligns_levSpec (b.length + a.length) b a le_rfl))
  have h2 : levSpec b a ≤ levSpec a b :=
    aligns_ge (aligns_symm (aligns_levSpec (a.length + b.length) a b le_rfl))
  exact le_antisymm h1 h2

/-- The inner `for j` sweep turns the row for `P` into the row for
`c2 :: P`. -/
theorem levStep_spec (c2 : Char) (P : List Char) :
    ∀ (u S : List Char),
      levStep c2 u (levSpec S P) (levSpec S (c2 :: P)) (levRowSpec S P u)
        = levRowSpec S (c2 :: P) u := by
  intro u
  induction u with
  | nil => intro S; rfl
  | cons c1 u ih =>
    intro S
    simp only [levStep, levRowSpec, List.headD_cons, List.tail_cons]
    have hv : min (levSpec (c1 :: S) P + 1)
        (min (levSpec S (c2 :: P) + 1)
          (if c1 = c2 then levSpec S P else levSpec S P + 1))
        = levSpec (c1 :: S) (c2 :: P) := by
      rw [levSpec_cons_cons]
      by_cases h : c1 = c2 <;> simp only [h, if_true, if_false] <;> omega
    rw [hv, ih (c1 :: S)]

/-- `levRowFor` turns the full row for `P` into the full row for
`c2 :: P`. -/
theorem levRowFor_spec (r1 P : List Char) (c2 : Char) :
    levRowFor r1 (levSpec [] P :: levRowSpec [] P r1) (P.length + 1) c2
      = levSpec [] (c2 :: P) :: levRowSpec [] (c2 :: P) r1 := by
  unfold levRowFor
  rw [List.headD_cons, List.tail_cons]
  have h1 : levSpec ([] : List Char) (c2 :: P) = P.length + 1 := by
    rw [levSpec_nil_left, List.length_cons]
  rw [← h1, levStep_spec c2 P r1 []]

/-- The outer `for i` loop: starting from the row for `P`, consuming
`rest` produces the row for `rest.reverse ++ P`. -/
theorem levLoop_spec (r1 : List Char) :
    ∀ (rest P : List Char),
      levLoop r1 rest (P.length + 1) (levSpec [] P :: levRowSpec [] P r1)
        = levSpec [] (rest.reverse ++ P) :: levRowSpec [] (rest.reverse ++ P) r1 := by
  intro rest
  induction rest with
  | nil => intro P; simp [levLoop]
  | cons c2 rest ih =>
    intro P
    show levLoop r1 rest (P.length + 1 + 1)
        (levRowFor r1 (levSpec [] P :: levRowSpec [] P r1) (P.length + 1) c2)
      = _
    rw [levRowFor_spec r1 P c2]
    have harr : (P.length + 1 + 1 : Nat) = (c2 :: P).length + 1 := by
      rw [List.length_cons]
    rw [harr, ih (c2 :: P)]
    have happ : (c2 :: rest).reverse ++ P = rest.reverse ++ (c2 :: P) := by
      rw [List.reverse_cons, List.append_assoc]
      rfl
    rw [happ]

/-- With an empty `P`, the row is just `0, 1, …, n`. -/
theorem levRowSpec_nil :
    ∀ (u S : List Char),
      levRowSpec S [] u = (List.range u.length).map (fun k => S.length + (k + 1)) := by
  intro u
  induction u with
  | nil => intro S; rfl
  | cons c1 u ih =>
    intro S
    simp only [levRowSpec, List.length_cons]
    rw [ih (c1 :: S), levSpec_nil_right, List.length_cons,
      List.range_succ_eq_map, List.map_cons, List.map_map]
    have hf : ((fun k => S.length + (k + 1)) ∘ Nat.succ)
        = (fun k => S.length + 1 + (k + 1)) :=
      funext (fun k => by simp only [Function.comp]; omega)
    rw [hf]

/-- The last entry of a full row for reversed consumed prefix `S` and
reversed other side `Q` is the distance between the whole (reversed)
`r1` extended onto `S`, and `Q`. -/
theorem levRow_getLast (Q : List Char) :
    ∀ (u S : List Char),
      (levSpec S Q :: levRowSpec S Q u).getLastD 0 = levSpec (u.reverse ++ S) Q := by
  intro u
  induction u with
  | nil => intro S; rfl
  | cons c1 u ih =>
    intro S
    show (levRowSpec S Q (c1 :: u)).getLastD (levSpec S Q) = _
    simp only [levRowSpec]
    have := ih (c1 :: S)
    rw [List.getLastD_cons] at this ⊢
    rw [this, List.reverse_cons, List.append_assoc]
    rfl

/-- The DP in `levenshtein` (client.go, lines 315-341) computes the
textbook Levenshtein distance of its two inputs: the rows track
distances of reversed prefixes, and the distance is invariant under
reversal and symmetric. -/
theorem levenshtein_eq_levSpec (s1 s2 : String) :
    levenshtein s1 s2 = levSpec s1.data s2.data := by
  have hrow : ∀ r1 r2 : List Char,
      (levLoop r1 r2 1 (List.range (r1.length + 1))).getLastD 0 = levSpec r1 r2 := by
    intro r1 r2
    have hinit : List.range (r1.length + 1)
        = levSpec [] ([] : List Char) :: levRowSpec [] ([] : List Char) r1 := by
      rw [levRowSpec_nil r1 [], levSpec_nil_left]
      rw [List.range_succ_eq_map]
      have hf : (fun k => ([] : List Char).length + (k + 1)) = Nat.succ :=
        funext (fun k => by simp)
      rw [hf]
      rfl
    rw [hinit]
    have h1 : (1 : Nat) = ([] : List Char).length + 1 := rfl
    rw [h1, levLoop_spec r1 r2 []]
    rw [levRow_getLast (r2.reverse ++ []) r1 []]
    rw [List.append_nil, List.append_nil]
    rw [levSpec_reverse]
  simp only [levenshtein]
  by_cases hlen : s1.data.length > s2.data.length
  · rw [if_pos hlen]
    rw [hrow s2.data s1.data]
    exact levSpec_comm s2.data s1.data
  · rw [if_neg hlen]
    exact hrow s1.data s2.data

end kodi

/-! ## Claims about payload decoding and ranking -/

/-- C3: identity resolution follows the fixed precedence with first
match winning — movie-ID, then episode-ID (also setting the episode
number), then show-ID (also setting the episode count), then season-ID
(also setting the episode count); in particular, when exactly one of
the four ID fields is non-zero the entity's ID equals that field and
the kind-specific fields are populated only per this precedence. -/
theorem c3_identity_resolution (raw : kodi.RawItem) :
    (raw.movieid ≠ 0 →
      (kodi.MediaItem.UnmarshalJSON raw).ID = raw.movieid ∧
      (kodi.MediaItem.UnmarshalJSON raw).Episode = 0 ∧
      (kodi.MediaItem.UnmarshalJSON raw).EpisodeCount = raw.episode_count) ∧
    (raw.movieid = 0 → raw.episodeid ≠ 0 →
      (kodi.MediaItem.UnmarshalJSON raw).ID = raw.episodeid ∧
      (kodi.MediaItem.UnmarshalJSON raw).Episode = raw.episode ∧
      (kodi.MediaItem.UnmarshalJSON raw).EpisodeCount = raw.episode_count) ∧
    (raw.movieid = 0 → raw.episodeid = 0 → raw.tvshowid ≠ 0 →
      (kodi.MediaItem.UnmarshalJSON raw).ID = raw.tvshowid ∧
      (kodi.MediaItem.UnmarshalJSON raw).Episode = 0 ∧
      (kodi.MediaItem.UnmarshalJSON raw).EpisodeCount = raw.episode) ∧
    (raw.movieid = 0 → raw.episodeid = 0 → raw.tvshowid = 0 → raw.seasonid ≠ 0 →
      (kodi.MediaItem.UnmarshalJSON raw).ID = raw.seasonid ∧
      (kodi.MediaItem.UnmarshalJSON raw).Episode = 0 ∧
      (kodi.MediaItem.UnmarshalJSON raw).EpisodeCount = raw.episode) := by
  obtain ⟨hID, hEp, hEC⟩ := kodi.UnmarshalJSON_identity_fields raw
  rw [hID, hEp, hEC]
  unfold kodi.MediaItem.identityStage kodi.MediaItem.baseDecode
  refine ⟨fun h1 => ?_, fun h1 h2 => ?_, fun h1 h2 h3 => ?_, fun h1 h2 h3 h4 => ?_⟩
  · rw [if_pos h1]; exact ⟨rfl, rfl, rfl⟩
  · rw [if_neg (not_not_intro h1), if_pos h2]; exact ⟨rfl, rfl, rfl⟩
  · rw [if_neg (not_not_intro h1), if_neg (not_not_intro h2), if_pos h3]
    exact ⟨rfl, rfl, rfl⟩
  · rw [if_neg (not_not_intro h1), if_neg (not_not_intro h2), if_neg (not_not_intro h3),
      if_pos h4]
    exact ⟨rfl, rfl, rfl⟩

/-- Concrete instances of C3: a movie payload and an episode payload. -/
theorem c3_witness :
    (kodi.MediaItem.UnmarshalJSON { movieid := 5, episode := 9, episode_count := 4 }).ID = 5 ∧
    (kodi.MediaItem.UnmarshalJSON { movieid := 5, episode := 9, episode_count := 4 }).Episode
      = 0 ∧
    (kodi.MediaItem.UnmarshalJSON
        { movieid := 5, episode := 9, episode_count := 4 }).EpisodeCount = 4 ∧
    (kodi.MediaItem.UnmarshalJSON { episodeid := 7, episode := 9 }).ID = 7 ∧
    (kodi.MediaItem.UnmarshalJSON { episodeid := 7, episode := 9 }).Episode = 9 := by
  refine ⟨?_, ?_, ?_, ?_, ?_⟩
  · exact ((c3_identity_resolution _).1 (by decide)).1
  · exact ((c3_identity_resolution _).1 (by decide)).2.1
  · exact ((c3_identity_resolution _).1 (by decide)).2.2
  · exact ((c3_identity_resolution _).2.1 (by decide) (by decide)).1
  · exact ((c3_identity_resolution _).2.1 (by decide) (by decide)).2.1

/-- The empty query is a prefix of every target. -/
theorem scoreItem_empty_query (item : kodi.MediaItem) :
    kodi.scoreItem (lowerStr "") item = some (-50) := by
  have hq : (lowerStr "").data = [] := rfl
  have hpfx : strHasPfx (kodi.targetOf item) (lowerStr "") = true := by
    unfold strHasPfx
    rw [hq]
    cases h2 : (kodi.targetOf item).data with
    | nil => rfl
    | cons c cs => rfl
  simp [kodi.scoreItem, hpfx]

/-- C10: with the empty query every item lands in the prefix tier with
score −50, nothing is excluded by the edit-distance filter, and the
result has exactly `min (length items) 20` entries. -/
theorem c10_empty_query (items : List kodi.MediaItem) :
    items.map (kodi.scoreItem (lowerStr "")) = items.map (fun _ => some (-50)) ∧
    (kodi.FuzzySearch items "").length = min items.length 20 := by
  constructor
  · induction items with
    | nil => rfl
    | cons i t ih => simp [scoreItem_empty_query, ih]
  · rw [kodi.FuzzySearch_length]
    have hsc : kodi.fuzzyScored items (lowerStr "") = items.map (fun i => (i, (-50 : Int))) := by
      induction items with
      | nil => rfl
      | cons i t ih =>
        unfold kodi.fuzzyScored at ih ⊢
        simp only [List.filterMap_cons]
        rw [scoreItem_empty_query i]
        rw [ih]
        rfl
    rw [hsc, List.length_map]

/-- The Go threshold computation is `max 3 (len/2)`. -/
theorem goThreshold_eq (n : Nat) : (if n / 2 < 3 then 3 else n / 2) = max 3 (n / 2) := by
  rcases le_or_lt 3 (n / 2) with h | h
  · rw [if_neg (by omega), Nat.max_eq_right h]
  · rw [if_pos h, Nat.max_eq_left (by omega)]

/-- C4: the three scoring tiers over the lower-cased concatenation of
title and show-title — prefix scores −50, substring scores 0, otherwise
the item is admitted iff the Levenshtein distance is at most
`max 3 (len(query)/2)` (so 3 for a length-4 query and 5 for a
length-10 query) with the distance as score; items failing all three
tiers never appear in the output; the distance the code computes is
the textbook Levenshtein edit distance. -/
theorem c4_tiered_scoring (query : String) (item : kodi.MediaItem)
    (items : List kodi.MediaItem) :
    (strHasPfx (kodi.targetOf item) (lowerStr query) = true →
      kodi.scoreItem (lowerStr query) item = some (-50)) ∧
    (strHasPfx (kodi.targetOf item) (lowerStr query) = false →
      strContains (kodi.targetOf item) (lowerStr query) = true →
      kodi.scoreItem (lowerStr query) item = some 0) ∧
    (strHasPfx (kodi.targetOf item) (lowerStr query) = false →
      strContains (kodi.targetOf item) (lowerStr query) = false →
      kodi.scoreItem (lowerStr query) item =
        (if kodi.levenshtein (lowerStr query) (kodi.targetOf item)
            ≤ max 3 ((lowerStr query).length / 2)
         then some (Int.ofNat (kodi.levenshtein (lowerStr query) (kodi.targetOf item)))
         else none)) ∧
    ((lowerStr query).length = 4 → max 3 ((lowerStr query).length / 2) = 3) ∧
    ((lowerStr query).length = 10 → max 3 ((lowerStr query).length / 2) = 5) ∧
    ((lowerStr query).length = query.length) ∧
    (kodi.scoreItem (lowerStr query) item = none → item ∉ kodi.FuzzySearch items query) ∧
    (kodi.levenshtein (lowerStr query) (kodi.targetOf item)
      = kodi.levSpec (lowerStr query).data (kodi.targetOf item).data) := by
  refine ⟨?_, ?_, ?_, ?_, ?_, ?_, ?_, ?_⟩
  · intro hp; simp [kodi.scoreItem, hp]
  · intro hp hc; simp [kodi.scoreItem, hp, hc]
  · intro hp hc
    simp only [kodi.scoreItem, hp, hc, Bool.false_eq_true, if_false]
    rw [goThreshold_eq]
  · intro h4; rw [h4]; decide
  · intro h10; rw [h10]; decide
  · unfold lowerStr
    exact List.length_map query.data Char.toLower
  · intro hnone hmem
    obtain ⟨s, hs⟩ := kodi.FuzzySearch_mem hmem
    rw [hnone] at hs
    cases hs
  · exact kodi.levenshtein_eq_levSpec (lowerStr query) (kodi.targetOf item)

/-- Concrete instances of C4's three tiers for the query `"brea"`. -/
theorem c4_witness :
    kodi.scoreItem (lowerStr "brea") { Title := "Breaking Bad" } = some (-50) ∧
    kodi.scoreItem (lowerStr "brea") { Title := "A Breach" } = some 0 ∧
    kodi.scoreItem (lowerStr "brea") { Title := "bra" } = some 1 := by
  refine ⟨(c4_tiered_scoring "brea" _ []).1 (by decide),
          (c4_tiered_scoring "brea" _ []).2.1 (by decide) (by decide), ?_⟩
  have h := (c4_tiered_scoring "brea" ({ Title := "bra" } : kodi.MediaItem) []).2.2.1
    (by decide) (by decide)
  rw [h]; decide

/-- C6 counterexample: a payload with none of the four identity fields
decodes to an entity with ID 0, and the movie sync fan-out still builds
a cache entry for it (`KodiID = 0`) — the entity is not rejected and
does contribute a cache entry. -/
theorem c6_counterexample :
    (c6Raw.movieid = 0 ∧ c6Raw.episodeid = 0 ∧ c6Raw.tvshowid = 0 ∧ c6Raw.seasonid = 0) ∧
    (kodi.MediaItem.UnmarshalJSON c6Raw).ID = 0 ∧
    server.syncMovieItems 1 (fun _ => "") [kodi.MediaItem.UnmarshalJSON c6Raw]
      = [{ ListID := 1, KodiID := 0, MediaType := "movie", Title := "Ghost" }] ∧
    (server.syncMovieItems 1 (fun _ => "") [kodi.MediaItem.UnmarshalJSON c6Raw]).length
      = 1 := by
  decide

/-- C6 (amended): an entity with none of the four identity fields is
*not* skipped — it decodes with the generic `id` field as its ID (zero
when absent) and contributes exactly one cache entry to the sync, like
every other fetched entity. -/
theorem c6_invalid_entity_cached (listID : Int) (poster : kodi.MediaItem → String)
    (raw : kodi.RawItem) (movies : List kodi.MediaItem)
    (h1 : raw.movieid = 0) (h2 : raw.episodeid = 0) (h3 : raw.tvshowid = 0)
    (h4 : raw.seasonid = 0) :
    (kodi.MediaItem.UnmarshalJSON raw).ID = raw.id ∧
    (server.syncMovieItems listID poster (kodi.MediaItem.UnmarshalJSON raw :: movies)).length
      = movies.length + 1 ∧
    (server.syncMovieItems listID poster
        (kodi.MediaItem.UnmarshalJSON raw :: movies)).head?
      = some (server.movieCacheItem listID (poster (kodi.MediaItem.UnmarshalJSON raw))
          (kodi.MediaItem.UnmarshalJSON raw)) := by
  refine ⟨?_, ?_, ?_⟩
  · have hID := (kodi.UnmarshalJSON_identity_fields raw).1
    rw [hID]
    unfold kodi.MediaItem.identityStage
    rw [if_neg (not_not_intro h1), if_neg (not_not_intro h2), if_neg (not_not_intro h3),
      if_neg (not_not_intro h4)]
    rfl
  · unfold server.syncMovieItems
    rw [List.length_map, List.length_cons]
  · rfl

/-- Concrete instance of C6's amended statement. -/
theorem c6_witness :
    (kodi.MediaItem.UnmarshalJSON c6Raw).ID = c6Raw.id ∧
    (server.syncMovieItems 1 (fun _ => "") [kodi.MediaItem.UnmarshalJSON c6Raw]).length
      = 0 + 1 := by
  have h := c6_invalid_entity_cached 1 (fun _ => "") c6Raw []
    (by decide) (by decide) (by decide) (by decide)
  exact ⟨h.1, h.2.1⟩

namespace database

/-- Bulk `INSERT OR REPLACE` of scope-homogeneous items with pairwise
distinct keys: the slice rows afterwards are the previous slice rows
followed by the new items, provided no existing row collides on the
unique key. -/
theorem addCache_filter (listID : Int) (dbType : String) :
    ∀ (items base : List CachedItem),
      (∀ j ∈ items, j.ListID = listID ∧ j.MediaType = dbType) →
      (items.map cacheKey).Nodup →
      (∀ b ∈ base, ∀ j ∈ items, cacheKey b ≠ cacheKey j) →
      (AddToLibraryCache base items).filter
          (fun r => r.ListID = listID ∧ r.MediaType = dbType) =
        base.filter (fun r => r.ListID = listID ∧ r.MediaType = dbType) ++ items := by
  intro items
  induction items with
  | nil =>
    intro base _ _ _
    simp [AddToLibraryCache]
  | cons i rest ih =>
    intro base hscope hnodup hkeys
    have hstep : AddToLibraryCache base (i :: rest)
        = AddToLibraryCache (insertOrReplace base i) rest := rfl
    rw [hstep]
    have hscope' : ∀ j ∈ rest, j.ListID = listID ∧ j.MediaType = dbType :=
      fun j hj => hscope j (List.mem_cons_of_mem i hj)
    have hinotin : cacheKey i ∉ rest.map cacheKey := by
      rw [List.map_cons] at hnodup
      exact (List.nodup_cons.mp hnodup).1
    have hnodup' : (rest.map cacheKey).Nodup := by
      rw [List.map_cons] at hnodup
      exact (List.nodup_cons.mp hnodup).2
    have hkeys' : ∀ b ∈ insertOrReplace base i, ∀ j ∈ rest, cacheKey b ≠ cacheKey j := by
      intro b hb j hj
      unfold insertOrReplace at hb
      rcases List.mem_append.mp hb with hb1 | hb2
      · exact hkeys b (List.mem_of_mem_filter hb1) j (List.mem_cons_of_mem i hj)
      · have hbi : b = i := by simpa using hb2
        subst hbi
        intro hK
        exact hinotin (hK ▸ List.mem_map_of_mem cacheKey hj)
    rw [ih (insertOrReplace base i) hscope' hnodup' hkeys']
    unfold insertOrReplace
    rw [List.filter_append]
    have hbasefix : base.filter (fun r => cacheKey r ≠ cacheKey i) = base := by
      apply List.filter_eq_self.mpr
      intro b hb
      simpa using hkeys b hb i (List.mem_cons_self i rest)
    rw [hbasefix]
    have hiscope : i.ListID = listID ∧ i.MediaType = dbType :=
      hscope i (List.mem_cons_self i rest)
    simp [hiscope]

end database

/-- C1 (amended): the bulk insert runs in one all-or-nothing
transaction, but the preceding clear is a separate statement whose
failure is only logged; when both steps succeed, a sync leaves exactly
the new rows (and exactly the new number of rows) in the
`(list, kind)` slice. -/
theorem c1_sync_replaces_slice (rows : List database.CachedItem) (listID : Int)
    (dbType : String) (items : List database.CachedItem)
    (hscope : ∀ j ∈ items, j.ListID = listID ∧ j.MediaType = dbType)
    (hkeys : (items.map database.cacheKey).Nodup) :
    (server.handleSyncSave rows listID dbType items true true).2 = true ∧
    (server.handleSyncSave rows listID dbType items true true).1.filter
        (fun r => r.ListID = listID ∧ r.MediaType = dbType) = items ∧
    database.countCacheRows (server.handleSyncSave rows listID dbType items true true).1
        listID dbType = items.length := by
  have hbase0 : (database.ClearLibraryCache rows listID dbType).filter
      (fun r => r.ListID = listID ∧ r.MediaType = dbType) = [] := by
    apply List.filter_eq_nil_iff.mpr
    intro a ha
    have hneg := of_decide_eq_true (List.mem_filter.mp ha).2
    simp only [decide_eq_true_eq]
    exact hneg
  have hkeybase : ∀ b ∈ database.ClearLibraryCache rows listID dbType, ∀ j ∈ items,
      database.cacheKey b ≠ database.cacheKey j := by
    intro b hb j hj hK
    have hbscope : ¬ (b.ListID = listID ∧ b.MediaType = dbType) :=
      of_decide_eq_true (List.mem_filter.mp hb).2
    obtain ⟨hjl, hjm⟩ := hscope j hj
    have h1 : b.ListID = j.ListID := congrArg Prod.fst hK
    have h3 : b.MediaType = j.MediaType := congrArg (fun p => p.2.2) hK
    exact hbscope ⟨h1.trans hjl, h3.trans hjm⟩
  have hmain := database.addCache_filter listID dbType items
    (database.ClearLibraryCache rows listID dbType) hscope hkeys hkeybase
  rw [hbase0, List.nil_append] at hmain
  have hred : (server.handleSyncSave rows listID dbType items true true).1
      = database.AddToLibraryCache (database.ClearLibraryCache rows listID dbType) items :=
    rfl
  refine ⟨rfl, ?_, ?_⟩
  · rw [hred, hmain]
  · unfold database.countCacheRows
    rw [hred, hmain]

/-- C1 counterexample: the clear and the insert are not one
transaction.  If the clear fails (only logged) while the insert
commits, the handler still reports success and the slice holds the old
rows plus the new ones — the sum, not the new count; if the clear
commits and the insert fails, the slice is left empty — neither the
old nor the new count. -/
theorem c1_counterexample :
    (server.handleSyncSave c1OldRows 1 "movie" c1NewItems false true).2 = true ∧
    database.countCacheRows
        (server.handleSyncSave c1OldRows 1 "movie" c1NewItems false true).1 1 "movie"
      = database.countCacheRows c1OldRows 1 "movie" + c1NewItems.length ∧
    database.countCacheRows
        (server.handleSyncSave c1OldRows 1 "movie" c1NewItems true false).1 1 "movie"
      = 0 ∧
    database.countCacheRows c1OldRows 1 "movie" = 1 ∧
    c1NewItems.length = 1 := by
  decide

/-- Concrete instance of C1's amended statement: syncing one new row
over one old row leaves exactly the new row. -/
theorem c1_witness :
    (server.handleSyncSave c1OldRows 1 "movie" c1NewItems true true).1.filter
        (fun r => r.ListID = 1 ∧ r.MediaType = "movie") = c1NewItems ∧
    database.countCacheRows
        (server.handleSyncSave c1OldRows 1 "movie" c1NewItems true true).1 1 "movie"
      = c1NewItems.length := by
  have h := c1_sync_replaces_slice c1OldRows 1 "movie" c1NewItems
    (by decide) (by decide)
  exact ⟨h.2.1, h.2.2⟩

/-! ## Claims about the migrator and the client calls -/

/-- C2: migration 2 issues
`UPDATE lists SET content_type = 'tv' WHERE name = 'tv'` *before* the
rename/add-column statements that create those columns, so it fails on
a fresh database and on an inferred-version-1 legacy database alike;
the legacy layout is correctly inferred as version 1 beforehand. -/
theorem c2_migration2_fails :
    database.migrate database.emptyDB
      = Except.error "migration 2 failed: no such column: content_type" ∧
    database.migrate database.legacyV1DB
      = Except.error "migration 2 failed: no such column: content_type" ∧
    (database.detectVersion (database.createTableIfNotExists database.legacyV1DB
        "schema_version" ["version"]) 0).1 = 1 ∧
    database.hasColumn database.legacyV1DB "lists" "type" = true ∧
    database.hasColumn database.legacyV1DB "lists" "name" = false := by
  refine ⟨rfl, rfl, rfl, rfl, rfl⟩

/-- C7: for every list call a malformed result payload degrades to an
empty collection with no error, while a non-null remote error envelope
is a hard error carrying the remote message and code. -/
theorem c7_list_calls (hostURL : String) (hmock : hostURL ≠ "mock")
    (e : kodi.JsonRPCError) (r : kodi.RawResult) (tvshowid season : Int) :
    (kodi.GetMovies hostURL (.response none .malformed) = .ok [] ∧
     kodi.GetTVShows hostURL (.response none .malformed) = .ok [] ∧
     kodi.GetSeasons hostURL tvshowid (.response none .malformed) = .ok [] ∧
     kodi.GetEpisodes hostURL tvshowid season (.response none .malformed) = .ok []) ∧
    (kodi.GetMovies hostURL (.response (some e) r) = .error (kodi.rpcErrorString e) ∧
     kodi.GetTVShows hostURL (.response (some e) r) = .error (kodi.rpcErrorString e) ∧
     kodi.GetSeasons hostURL tvshowid (.response (some e) r)
       = .error (kodi.rpcErrorString e) ∧
     kodi.GetEpisodes hostURL tvshowid season (.response (some e) r)
       = .error (kodi.rpcErrorString e)) := by
  unfold kodi.GetMovies kodi.GetTVShows kodi.GetSeasons kodi.GetEpisodes
  simp only [if_neg hmock]
  exact ⟨⟨rfl, rfl, rfl, rfl⟩, ⟨rfl, rfl, rfl, rfl⟩⟩

/-- Concrete instance of C7 against a non-mock host. -/
theorem c7_witness :
    kodi.GetMovies "kodi:8080" (.response none .malformed) = .ok [] ∧
    kodi.GetMovies "kodi:8080"
        (.response (some ⟨-32601, "Method not found"⟩) .malformed)
      = .error (kodi.rpcErrorString ⟨-32601, "Method not found"⟩) := by
  have h := c7_list_calls "kodi:8080" (by decide) ⟨-32601, "Method not found"⟩
    .malformed 0 0
  exact ⟨h.1.1, h.2.1⟩

/-- C8: once a single image fetch actually reaches the network, a 404
is a soft miss — empty reference and no error — while any other
non-200 status or a transport failure is a hard error for that one
asset. -/
theorem c8_image_status (hostURL : String) (item : kodi.MediaItem)
    (mediaType msg : String) (env : server.ImgEnv) (code : Int)
    (huri : server.bestImageURI item ≠ "") (hmock : hostURL ≠ "mock")
    (hfast : env.existsFast = false) (hlocked : env.existsLocked = false)
    (hreq : env.requestOk = true) :
    (env.fetch = .status 404 →
      server.downloadBestImage hostURL item mediaType env = .ok "") ∧
    (env.fetch = .status code → code ≠ 200 → code ≠ 404 →
      server.downloadBestImage hostURL item mediaType env
        = .error ("kodi image error: " ++ toString code)) ∧
    (env.fetch = .transportError msg →
      server.downloadBestImage hostURL item mediaType env = .error msg) := by
  unfold server.downloadBestImage
  rw [if_neg huri, if_neg hmock]
  simp only [hfast, hlocked, hreq, Bool.false_eq_true, if_false, Bool.not_true,
    Bool.false_eq_true, if_true, not_true, Bool.true_eq_false]
  refine ⟨?_, ?_, ?_⟩
  · intro hf
    rw [hf]
    rfl
  · intro hf h200 h404
    rw [hf]
    simp only [if_pos h200, if_neg h404]
  · intro hf
    rw [hf]

/-- Concrete instances of C8: a 404 is a soft miss, a 500 a hard
error. -/
theorem c8_witness :
    server.downloadBestImage "kodihost:8080" c9Item "movie"
        { existsFast := false, existsLocked := false,
          fetch := server.FetchResult.status 404 } = .ok "" ∧
    server.downloadBestImage "kodihost:8080" c9Item "movie"
        { existsFast := false, existsLocked := false,
          fetch := server.FetchResult.status 500 }
      = .error ("kodi image error: " ++ toString (500 : Int)) := by
  refine ⟨(c8_image_status "kodihost:8080" c9Item "movie" "x" _ 0
      (by decide) (by decide) rfl rfl rfl).1 rfl,
    (c8_image_status "kodihost:8080" c9Item "movie" "x" _ 500
      (by decide) (by decide) rfl rfl rfl).2.1 rfl (by decide) (by decide)⟩

/-- A caller that finds the poster file already cached returns the
local reference without fetching, whatever the network would have
answered. -/
theorem imageCallers_cached (hostURL : String) (item : kodi.MediaItem) (mediaType : String)
    (huri : server.bestImageURI item ≠ "") (hmock : hostURL ≠ "mock") :
    ∀ outcomes : List server.FetchResult,
      server.imageCallers hostURL item mediaType outcomes true
        = (0, outcomes.map (fun _ => Except.ok ("/api/posters/"
            ++ server.posterFileName mediaType item.Title item.Year))) := by
  intro outcomes
  induction outcomes with
  | nil => rfl
  | cons o rest ih =>
    have hreach : server.reachesFetch hostURL item true = false := by
      unfold server.reachesFetch
      simp
    have hdl : server.downloadBestImage hostURL item mediaType
        { existsFast := true, existsLocked := true, fetch := o }
        = .ok ("/api/posters/" ++ server.posterFileName mediaType item.Title item.Year) := by
      unfold server.downloadBestImage
      rw [if_neg huri, if_neg hmock]
      rfl
    simp only [server.imageCallers, hreach, hdl, Bool.false_eq_true, if_false,
      Bool.false_and, Bool.true_or, ih, List.map_cons]

/-- Serialized callers that all hit a 404: each one fetches (the miss
is never recorded locally) and each one gets the empty reference. -/
theorem imageCallers_404 (hostURL : String) (item : kodi.MediaItem) (mediaType : String)
    (huri : server.bestImageURI item ≠ "") (hmock : hostURL ≠ "mock") :
    ∀ outcomes : List server.FetchResult,
      (∀ o ∈ outcomes, o = server.FetchResult.status 404) →
      server.imageCallers hostURL item mediaType outcomes false
        = (outcomes.length, outcomes.map (fun _ => Except.ok "")) := by
  intro outcomes
  induction outcomes with
  | nil => intro _; rfl
  | cons o rest ih =>
    intro hall
    have ho : o = server.FetchResult.status 404 := hall o (List.mem_cons_self o rest)
    subst ho
    have hreach : server.reachesFetch hostURL item false = true := by
      unfold server.reachesFetch
      simp [huri, hmock]
    have hdl : server.downloadBestImage hostURL item mediaType
        { existsFast := false, existsLocked := false,
          fetch := server.FetchResult.status 404 } = .ok "" := by
      unfold server.downloadBestImage
      rw [if_neg huri, if_neg hmock]
      rfl
    simp only [server.imageCallers, hreach, hdl, if_true, Bool.false_or, Bool.true_and]
    have hd : (decide (server.FetchResult.status 404 = server.FetchResult.status 200))
        = false := rfl
    simp only [hd]
    rw [ih (fun x hx => hall x (List.mem_cons_of_mem _ hx))]
    simp [Nat.add_comm]

/-- C9 (amended): among callers for the same key serialized by the
per-key lock, a successful (HTTP 200) download is fetched exactly once
and every caller receives the same local reference; a 404 yields an
empty reference and no error for every caller, but the negative result
is not cached, so each of the N callers performs its own network
fetch. -/
theorem c9_image_fetches (hostURL : String) (item : kodi.MediaItem) (mediaType : String)
    (outcomes : List server.FetchResult)
    (huri : server.bestImageURI item ≠ "") (hmock : hostURL ≠ "mock") :
    ((∀ o ∈ outcomes, o = server.FetchResult.status 200) → outcomes ≠ [] →
      server.imageCallers hostURL item mediaType outcomes false
        = (1, outcomes.map (fun _ => Except.ok ("/api/posters/"
            ++ server.posterFileName mediaType item.Title item.Year)))) ∧
    ((∀ o ∈ outcomes, o = server.FetchResult.status 404) →
      server.imageCallers hostURL item mediaType outcomes false
        = (outcomes.length, outcomes.map (fun _ => Except.ok ""))) := by
  constructor
  · intro hall hne
    cases outcomes with
    | nil => exact absurd rfl hne
    | cons o rest =>
      have ho : o = server.FetchResult.status 200 := hall o (List.mem_cons_self o rest)
      subst ho
      have hreach : server.reachesFetch hostURL item false = true := by
        unfold server.reachesFetch
        simp [huri, hmock]
      have hdl : server.downloadBestImage hostURL item mediaType
          { existsFast := false, existsLocked := false,
            fetch := server.FetchResult.status 200 }
          = .ok ("/api/posters/" ++ server.posterFileName mediaType item.Title item.Year) := by
        unfold server.downloadBestImage
        rw [if_neg huri, if_neg hmock]
        rfl
      simp only [server.imageCallers, hreach, hdl, if_true, Bool.false_or, Bool.true_and,
        decide_True]
      rw [imageCallers_cached hostURL item mediaType huri hmock rest]
      simp
  · exact imageCallers_404 hostURL item mediaType huri hmock outcomes

/-- C9 counterexample: two serialized callers both see a 404 — both
receive the empty reference, as the claim says, but *two* network
fetches occur, refuting "exactly one network fetch". -/
theorem c9_counterexample :
    server.imageCallers "kodihost:8080" c9Item "movie"
        [server.FetchResult.status 404, server.FetchResult.status 404] false
      = (2, [Except.ok "", Except.ok ""]) ∧ (2 : Nat) ≠ 1 := by
  exact ⟨rfl, by decide⟩

/-- Concrete instance of C9's amended statement: three 200-callers,
one fetch, all with the same local reference. -/
theorem c9_witness :
    server.imageCallers "kodihost:8080" c9Item "movie"
        [server.FetchResult.status 200, server.FetchResult.status 200,
         server.FetchResult.status 200] false
      = (1, [Except.ok "/api/posters/movie_thematrix_1999.jpg",
             Except.ok "/api/posters/movie_thematrix_1999.jpg",
             Except.ok "/api/posters/movie_thematrix_1999.jpg"]) := by
  have h := (c9_image_fetches "kodihost:8080" c9Item "movie"
    [server.FetchResult.status 200, server.FetchResult.status 200,
     server.FetchResult.status 200] (by decide) (by decide)).1
    (by decide) (by decide)
  rw [h]
  rfl
